import Mathlib

/-!
Shallow embedding of the Sudoku grid editor core (selection engine, puzzle
state operations, history log, and the SG1 serialization codec), translated
from `src/components/sudoku/grid.tsx`, `src/components/sudoku/utils/selection.ts`,
the grid utilities (`createNumberGrid`, `createDigitCube`, `selectionTargets`)
and the SG1 codec module (`stateCodec`).

Strings are modelled as `List Char`.  JavaScript numbers appearing as cell
values, digits and history indices are modelled as `Nat`/`Int`; the 32-bit
semantics of the JavaScript bitwise operators used by the note-cube codec
(`<<`, `|`, `>>`, `&`) is modelled explicitly on 32-bit bit patterns.
-/

namespace Sudoku

/-! ### Base-36 text primitives (`to36`, `from36` from stateCodec) -/

/-- Value of one base-36 digit character, if valid.  `parseInt(·, 36)` accepts
`0`-`9` (codes 48-57), `a`-`z` (codes 97-122) and `A`-`Z` (codes 65-90). -/
def digit36 (c : Char) : Option Nat :=
  let n := c.toNat
  if 48 ≤ n ∧ n ≤ 57 then some (n - 48)
  else if 97 ≤ n ∧ n ≤ 122 then some (n - 87)
  else if 65 ≤ n ∧ n ≤ 90 then some (n - 55)
  else none

/-- The character for a base-36 digit value (lowercase, as produced by
JavaScript `Number.prototype.toString(36)`). -/
def to36Digit (d : Nat) : Char :=
  if d < 10 then Char.ofNat (48 + d) else Char.ofNat (87 + d)

/-- Fuel-driven base-36 printer; `fuel` only needs to exceed `n`. -/
def to36Aux : Nat → Nat → List Char
  | 0, _ => []
  | fuel + 1, n =>
    if n < 36 then [to36Digit n]
    else to36Aux fuel (n / 36) ++ [to36Digit (n % 36)]

/-- `to36 n` is `n.toString(36)` for a nonnegative integer `n`. -/
def to36 (n : Nat) : List Char :=
  to36Aux (n + 1) n

/-- Code points treated as whitespace by JavaScript `parseInt` (WhiteSpace and
LineTerminator productions). -/
def jsWhitespace (c : Char) : Bool :=
  [9, 10, 11, 12, 13, 32, 160, 5760, 8192, 8193, 8194, 8195, 8196, 8197, 8198,
    8199, 8200, 8201, 8202, 8232, 8233, 8239, 8287, 12288, 65279].contains c.toNat

/-- Longest prefix of base-36 digits, as digit values. -/
def takeDigits36 (s : List Char) : List Nat :=
  (s.takeWhile fun c => (digit36 c).isSome).map fun c => (digit36 c).getD 0

/-- Value of a big-endian list of base-36 digit values. -/
def valOfDigits (ds : List Nat) : Nat :=
  ds.foldl (fun a d => a * 36 + d) 0

/-- `from36 s` is `parseInt(s, 36) || 0`: leading whitespace is skipped, an
optional sign is read, then the longest base-36 digit prefix is parsed; if no
digit is found the `NaN` (and `-0`) result collapses to `0` through `|| 0`. -/
def from36 (s : List Char) : Int :=
  let t := s.dropWhile jsWhitespace
  match t with
  | [] => 0
  | c :: rest =>
    if c = '-' then
      let ds := takeDigits36 rest
      if ds = [] then 0 else -(valOfDigits ds : Int)
    else if c = '+' then
      let ds := takeDigits36 rest
      if ds = [] then 0 else (valOfDigits ds : Int)
    else
      let ds := takeDigits36 (c :: rest)
      if ds = [] then 0 else (valOfDigits ds : Int)

/-! ### Grid containers (`createNumberGrid`, `createDigitCube` from grids.ts) -/

/-- A board cell, as the `[row, col]` pair used throughout the source. -/
abbrev Cell := Nat × Nat

abbrev NumberGrid := List (List Nat)

/-- A note cube: per cell a list indexed `0..size` of 0/1 presence flags
(index `0` is allocated but never set, as in `createDigitCube`). -/
abbrev DigitCube := List (List (List Nat))

/-- Color names supported by the palette (the keys of `COLOR_TO_CODE`). -/
inductive ColorName where
  | red | orange | yellow | green | blue | cyan | violet | pink | transparent
deriving DecidableEq

abbrev ColorGrid := List (List (List ColorName))

/-- `COLOR_TO_CODE`. -/
def colorToCode : ColorName → Char
  | .red => 'r'
  | .orange => 'o'
  | .yellow => 'y'
  | .green => 'g'
  | .blue => 'b'
  | .cyan => 'c'
  | .violet => 'v'
  | .pink => 'p'
  | .transparent => 't'

/-- `CODE_TO_COLOR` (inverse lookup; unknown codes give `none`). -/
def codeToColor (c : Char) : Option ColorName :=
  if c = 'r' then some .red
  else if c = 'o' then some .orange
  else if c = 'y' then some .yellow
  else if c = 'g' then some .green
  else if c = 'b' then some .blue
  else if c = 'c' then some .cyan
  else if c = 'v' then some .violet
  else if c = 'p' then some .pink
  else if c = 't' then some .transparent
  else none

def createNumberGrid (size : Nat) : NumberGrid :=
  List.replicate size (List.replicate size 0)

def createDigitCube (size : Nat) : DigitCube :=
  List.replicate size (List.replicate size (List.replicate (size + 1) 0))

def createColorGrid (size : Nat) : ColorGrid :=
  List.replicate size (List.replicate size ([] : List ColorName))

/-- `grid?.[r]?.[c] ?? 0`. -/
def gridGet (g : NumberGrid) (r c : Nat) : Nat :=
  (g.getD r []).getD c 0

/-- `cube?.[r]?.[c]` followed by index `d` (missing entries read as 0). -/
def cubeGet (cube : DigitCube) (r c d : Nat) : Nat :=
  ((cube.getD r []).getD c []).getD d 0

/-- The per-cell flag list `cube[r][c]`. -/
def cubeCell (cube : DigitCube) (r c : Nat) : List Nat :=
  (cube.getD r []).getD c []

/-- `grid?.[r]?.[c] ?? []` for the color grid. -/
def colorsGet (g : ColorGrid) (r c : Nat) : List ColorName :=
  (g.getD r []).getD c []

/-- Row-major list of all cell values of a size×size number grid
(out-of-shape reads default to 0, as `grid?.[r]?.[c] ?? 0` does). -/
def rowMajorVals (g : NumberGrid) (size : Nat) : List Nat :=
  (List.range size).flatMap fun r => (List.range size).map fun c => gridGet g r c

/-- Row-major list of the per-cell flag lists of a cube. -/
def rowMajorCells (cube : DigitCube) (size : Nat) : List (List Nat) :=
  (List.range size).flatMap fun r => (List.range size).map fun c => cubeCell cube r c

/-- Row-major list of the per-cell color lists. -/
def rowMajorColors (g : ColorGrid) (size : Nat) : List (List ColorName) :=
  (List.range size).flatMap fun r => (List.range size).map fun c => colorsGet g r c

/-! ### SG1 codec -/

def msgNumRange : List Char := "Value out of encodable range (0..35)".toList
def msgNumLen : List Char := "Corrupt state: number grid length mismatch".toList
def msgCubeEmpty : List Char := "Corrupt state: empty cube payload".toList
def msgCubeWidth : List Char := "Corrupt state: invalid mask width".toList
def msgCubeLen : List Char := "Corrupt state: mask length mismatch".toList
def msgColorsMany : List Char := "Too many color stripes in a cell (max 35)".toList
def msgColorsTrunc : List Char := "Corrupt state: truncated colors segment".toList
def msgNoHeader : List Char := "Invalid state payload".toList
def msgMissingSegs : List Char := "Corrupt state: missing segments".toList

/-- `SG1.encodeNumGrid`: one base-36 digit per cell, row-major; throws when a
cell value is `≥ 36` (negative values cannot occur with `Nat` cell values).
The source emits cells one by one and throws at the first offending cell;
this is modelled as a whole-grid range check followed by the emission. -/
def encodeNumGrid (grid : NumberGrid) (size : Nat) : Except (List Char) (List Char) :=
  if (rowMajorVals grid size).all fun v => v < 36 then
    .ok ((rowMajorVals grid size).map to36).flatten
  else
    .error msgNumRange

/-- `SG1.decodeNumGrid`.  The source loop writes `grid[⌊i/size⌋][i % size] =
from36(s[i])` for `i < size²` into a zero grid, visiting each cell exactly
once with `i = r*size + c`; the grid is therefore built directly by that
index formula. -/
def decodeNumGrid (s : List Char) (size : Nat) : Except (List Char) NumberGrid :=
  if s.length ≠ size * size then .error msgNumLen
  else .ok ((List.range size).map fun r => (List.range size).map fun c =>
    (from36 [s.getD (r * size + c) '0']).toNat)

/-- `maskWidthForSize`: the number of base-36 digits of `2^size − 1`, at
least 1. -/
def maskWidthForSize (size : Nat) : Nat :=
  max 1 (to36 (2 ^ size - 1)).length

/-- The 32-bit pattern accumulated by `mask |= 1 << (d - 1)` for `d = 1..size`
over one cell (JavaScript `<<` reduces the shift count modulo 32 and `|=`
works on 32-bit integers; the pattern is kept as a `Nat < 2^32`). -/
def cellMaskPattern (cell : List Nat) (size : Nat) : Nat :=
  (List.range size).foldl
    (fun mask d0 => if cell.getD (d0 + 1) 0 ≠ 0 then mask ||| 2 ^ (d0 % 32) else mask) 0

/-- `mask.toString(36)` where `mask` is the signed 32-bit value of pattern
`p` (patterns `≥ 2^31` print as a negative number). -/
def maskToString (p : Nat) : List Char :=
  if p < 2 ^ 31 then to36 p else '-' :: to36 (2 ^ 32 - p)

/-- `String.prototype.padStart(width, "0")`. -/
def padStart (s : List Char) (width : Nat) : List Char :=
  List.replicate (width - s.length) '0' ++ s

/-- `SG1.encodeDigitCube`: fixed-width zero-padded base-36 mask per cell,
row-major. -/
def encodeDigitCube (cube : DigitCube) (size : Nat) : Nat × List Char :=
  let width := maskWidthForSize size
  (width,
    ((rowMajorCells cube size).map fun cell =>
      padStart (maskToString (cellMaskPattern cell size)) width).flatten)

/-- `SG1.decodeDigitCube`.  The source advances a cursor by `width` per cell
in row-major order, so cell `(r, c)` reads the chunk at offset
`(r*size + c) * width`; bit `d − 1` of the 32-bit pattern of the parsed chunk
(`(mask >> (d-1)) & 1` with the JavaScript 32-bit shift) gives flag `d`. -/
def decodeDigitCube (payload : List Char) (size : Nat) : Except (List Char) DigitCube :=
  match payload with
  | [] => .error msgCubeEmpty
  | w :: body =>
    let width := (from36 [w]).toNat
    if width < 1 ∨ width > 10 then .error msgCubeWidth
    else if body.length ≠ size * size * width then .error msgCubeLen
    else .ok ((List.range size).map fun r => (List.range size).map fun c =>
      let chunk := (body.drop ((r * size + c) * width)).take width
      let p := ((from36 chunk) % (2 ^ 32 : Int)).toNat
      (List.range (size + 1)).map fun d =>
        if d = 0 then 0 else if p.testBit ((d - 1) % 32) then 1 else 0)

/-- The encoded entry of one cell of the color grid: a length digit followed
by the one-character codes (every `ColorName` has a code, so the code string
has exactly the length of the list). -/
def colorEntry (cl : List ColorName) : List Char :=
  to36 cl.length ++ cl.map colorToCode

/-- `SG1.encodeColors`: per-cell `<len><codes>` entries, row-major; throws
when a cell has 36 or more stripes.  The source emits cells one by one and
throws at the first offending cell; this is modelled as a whole-grid check
followed by the emission. -/
def encodeColors (g : ColorGrid) (size : Nat) : Except (List Char) (List Char) :=
  if (rowMajorColors g size).all fun cl => cl.length < 36 then
    .ok ((rowMajorColors g size).map colorEntry).flatten
  else
    .error msgColorsMany

/-- The sequential per-cell loop of `SG1.decodeColors`: for each remaining
cell, fail if the cursor is at the end, read a length digit, slice that many
code characters (a short tail yields a short slice, exactly like
`String.prototype.slice`) and keep the known codes. -/
def decodeColorCells : Nat → List Char → Except (List Char) (List (List ColorName))
  | 0, _ => .ok []
  | n + 1, s =>
    match s with
    | [] => .error msgColorsTrunc
    | lc :: rest =>
      let len := (from36 [lc]).toNat
      let seg := rest.take len
      let cell := seg.filterMap codeToColor
      (decodeColorCells n (rest.drop len)).map fun cells => cell :: cells

/-- `SG1.decodeColors`: `size²` sequential entries, laid back out row-major
(cell `(r, c)` is entry `r*size + c`). -/
def decodeColors (s : List Char) (size : Nat) : Except (List Char) ColorGrid :=
  (decodeColorCells (size * size) s).map fun cells =>
    (List.range size).map fun r => (List.range size).map fun c =>
      cells.getD (r * size + c) []

/-- `|`-joining of `Array.prototype.join("|")`. -/
def joinPipe : List (List Char) → List Char
  | [] => []
  | [a] => a
  | a :: rest => a ++ '|' :: joinPipe rest

/-- `String.prototype.split("|")`. -/
def splitOnPipe : List Char → List (List Char)
  | [] => [[]]
  | c :: rest =>
    if c = '|' then [] :: splitOnPipe rest
    else
      match splitOnPipe rest with
      | [] => [[c]]
      | a :: as => (c :: a) :: as

def hdrSG1 : List Char := "SG1".toList

/-- `SG1.buildPayload`: joins `["SG1", size, preset, user, center, corner,
colors, ""]` with `|` (the trailing empty segment gives the trailing `|`). -/
def buildPayload (size : Nat) (preset user : NumberGrid) (center corner : DigitCube)
    (colors : ColorGrid) : Except (List Char) (List Char) := do
  let sizeStr := to36 size
  let presetEnc ← encodeNumGrid preset size
  let userEnc ← encodeNumGrid user size
  let cCenter := encodeDigitCube center size
  let cCorner := encodeDigitCube corner size
  let colorsEnc ← encodeColors colors size
  let centerSeg := to36 cCenter.1 ++ cCenter.2
  let cornerSeg := to36 cCorner.1 ++ cCorner.2
  .ok (joinPipe [hdrSG1, sizeStr, presetEnc, userEnc, centerSeg, cornerSeg, colorsEnc, []])

/-! ### Selection helpers (selection.ts) -/

abbrev Selection := List (List Bool)

/-- `createEmptySelection`. -/
def createEmptySelection (size : Nat) : Selection :=
  List.replicate size (List.replicate size false)

/-- `selection?.[r]?.[c]` coerced to a boolean (missing cells read `false`). -/
def selGet (sel : Selection) (r c : Nat) : Bool :=
  (sel.getD r []).getD c false

/-- In-bounds write `sel[r][c] = v` (out-of-range writes cannot occur in the
source: every cell fed to them comes from `getCellFromPointer`, which
clamps). -/
def selSet (sel : Selection) (r c : Nat) (v : Bool) : Selection :=
  sel.set r ((sel.getD r []).set c v)

/-- `hasAnySelected`. -/
def hasAnySelected (sel : Selection) : Bool :=
  sel.any fun row => row.any id

/-- `buildSingleSelection`. -/
def buildSingleSelection (size : Nat) (r c : Nat) : Selection :=
  selSet (createEmptySelection size) r c true

/-- `indexInStack` (`findIndex`: `-1` when absent). -/
def indexInStack (stack : List Cell) (cell : Cell) : Int :=
  match stack.findIdx? (fun p => p = cell) with
  | some i => (i : Int)
  | none => -1

/-- `pushIfAbsent`. -/
def pushIfAbsent (stack : List Cell) (cell : Cell) : List Cell :=
  if indexInStack stack cell = -1 then stack ++ [cell] else stack

/-- `removeFromStack`. -/
def removeFromStack (stack : List Cell) (cell : Cell) : List Cell :=
  stack.filter fun p => ¬(p.1 = cell.1 ∧ p.2 = cell.2)

/-- `stackFromMatrix`: nested row-then-column loops pushing every selected
coordinate. -/
def stackFromMatrix (mat : Selection) : List Cell :=
  (List.range mat.length).flatMap fun r =>
    (List.range (mat.getD r []).length).filterMap fun c =>
      if (mat.getD r []).getD c false then some (r, c) else none

/-- `selectionTargets` (grids.ts). -/
def selectionTargets (sel : Selection) (current : Option Cell) : List Cell :=
  if hasAnySelected sel then stackFromMatrix sel
  else
    match current with
    | some c => [c]
    | none => []

/-! ### Editor state -/

inductive DragMode where
  | rect | paintAdd | paintErase
deriving DecidableEq

/-- The per-drag record held in `dragRef`. -/
structure DragInfo where
  mode : DragMode
  start : Cell
  base : Selection
  working : Selection
  visited : List Nat
  last : Option Cell
deriving DecidableEq

/-- The state owned by one `SudokuGrid` instance (uncontrolled mode: the
component owns selection and current cell).  `suppress` is
`suppressHistoryRef`; it is 0 outside `importState`/`undo`/`redo` (each
increments it and decrements it again in a 0-delay timeout that fires before
the next user-visible operation). -/
structure GridState where
  size : Nat
  preset : NumberGrid
  user : NumberGrid
  center : DigitCube
  corner : DigitCube
  colors : ColorGrid
  selection : Selection
  stack : List Cell
  current : Option Cell
  drag : Option DragInfo
  history : List (List Char)
  histIndex : Int
  suppress : Nat
deriving DecidableEq

/-- A fresh instance right after mount for a given size and preset grid
(before the mount effect pushes the baseline snapshot). -/
def initState (size : Nat) (preset : NumberGrid) : GridState :=
  { size := size
    preset := preset
    user := createNumberGrid size
    center := createDigitCube size
    corner := createDigitCube size
    colors := createColorGrid size
    selection := createEmptySelection size
    stack := []
    current := none
    drag := none
    history := []
    histIndex := -1
    suppress := 0 }

/-- `isPreset`. -/
def isPreset (s : GridState) (r c : Nat) : Bool :=
  0 < gridGet s.preset r c

/-- In-bounds write `grid[r][c] = v`. -/
def setGridCell (g : NumberGrid) (r c : Nat) (v : Nat) : NumberGrid :=
  g.set r ((g.getD r []).set c v)

/-- In-bounds write of a whole cube cell. -/
def setCubeCell (cube : DigitCube) (r c : Nat) (cell : List Nat) : DigitCube :=
  cube.set r ((cube.getD r []).set c cell)

/-- In-bounds write of a whole color cell. -/
def setColorCell (g : ColorGrid) (r c : Nat) (cell : List ColorName) : ColorGrid :=
  g.set r ((g.getD r []).set c cell)

/-- The targets of `withTargets` in the current state. -/
def targetsOf (s : GridState) : List Cell :=
  selectionTargets s.selection s.current

/-- `setValueOnTargets` / `setDigit`: skips preset cells, writes
`value > 0 ? value : 0`. -/
def setDigit (s : GridState) (value : Int) : GridState :=
  (targetsOf s).foldl
    (fun st rc =>
      if isPreset st rc.1 rc.2 then st
      else { st with user := setGridCell st.user rc.1 rc.2 (if 0 < value then value.toNat else 0) })
    s

/-- `toggleDigitIn` for the center cube / `toggleCenterNote`. -/
def toggleCenterNote (s : GridState) (digit : Int) : GridState :=
  if digit < 1 ∨ (s.size : Int) < digit then s
  else
    (targetsOf s).foldl
      (fun st rc =>
        if isPreset st rc.1 rc.2 then st
        else
          let cell := (cubeCell st.center rc.1 rc.2).set digit.toNat
            (if cubeGet st.center rc.1 rc.2 digit.toNat ≠ 0 then 0 else 1)
          { st with center := setCubeCell st.center rc.1 rc.2 cell })
      s

/-- `toggleDigitIn` for the corner cube / `toggleCornerNote`. -/
def toggleCornerNote (s : GridState) (digit : Int) : GridState :=
  if digit < 1 ∨ (s.size : Int) < digit then s
  else
    (targetsOf s).foldl
      (fun st rc =>
        if isPreset st rc.1 rc.2 then st
        else
          let cell := (cubeCell st.corner rc.1 rc.2).set digit.toNat
            (if cubeGet st.corner rc.1 rc.2 digit.toNat ≠ 0 then 0 else 1)
          { st with corner := setCubeCell st.corner rc.1 rc.2 cell })
      s

/-- `clearDigitsIn` for the center cube (`next[r][c].fill(0)` keeps the cell
length). -/
def clearCenterNotes (s : GridState) : GridState :=
  (targetsOf s).foldl
    (fun st rc =>
      if isPreset st rc.1 rc.2 then st
      else
        let cell := List.replicate (cubeCell st.center rc.1 rc.2).length (0 : Nat)
        { st with center := setCubeCell st.center rc.1 rc.2 cell })
    s

/-- `clearDigitsIn` for the corner cube. -/
def clearCornerNotes (s : GridState) : GridState :=
  (targetsOf s).foldl
    (fun st rc =>
      if isPreset st rc.1 rc.2 then st
      else
        let cell := List.replicate (cubeCell st.corner rc.1 rc.2).length (0 : Nat)
        { st with corner := setCubeCell st.corner rc.1 rc.2 cell })
    s

/-- `annotateColor`: toggles membership (`splice` on the first occurrence,
else `push`).  Note: unlike the digit and note operations, the source has no
`isPreset` guard here. -/
def annotateColor (s : GridState) (color : ColorName) : GridState :=
  (targetsOf s).foldl
    (fun st rc =>
      let list := colorsGet st.colors rc.1 rc.2
      let next := if color ∈ list then list.erase color else list ++ [color]
      { st with colors := setColorCell st.colors rc.1 rc.2 next })
    s

/-- `annotateClear`: empties the color list of each target cell (no `isPreset`
guard in the source). -/
def annotateClear (s : GridState) : GridState :=
  (targetsOf s).foldl
    (fun st rc => { st with colors := setColorCell st.colors rc.1 rc.2 [] })
    s

/-- `reset`. -/
def resetBoard (s : GridState) : GridState :=
  { s with
    user := createNumberGrid s.size
    center := createDigitCube s.size
    corner := createDigitCube s.size
    colors := createColorGrid s.size }

/-! ### History (`pushHistory`, `undo`, `redo`) -/

/-- `snapshot()`: the full SG1 payload of the current grids. -/
def snapshot (s : GridState) : Except (List Char) (List Char) :=
  buildPayload s.size s.preset s.user s.center s.corner s.colors

/-- `pushHistory`: no-op while suppressed or when the snapshot at the cursor
equals the new one; otherwise drops the redo tail (`splice(idx + 1)`),
appends, trims the front beyond 200 entries and moves the cursor to the
end. -/
def pushHistory (s : GridState) (snap : List Char) : GridState :=
  if 0 < s.suppress then s
  else if 0 ≤ s.histIndex ∧ s.history.get? s.histIndex.toNat = some snap then s
  else
    let h1 := if s.histIndex < (s.history.length : Int) - 1
      then s.history.take (s.histIndex + 1).toNat else s.history
    let h2 := h1 ++ [snap]
    let h3 := if 200 < h2.length then h2.drop (h2.length - 200) else h2
    { s with history := h3, histIndex := (h3.length : Int) - 1 }

/-- `undo`: fails (returns `false`) unless the cursor is positive; otherwise
decodes the user grid, both cubes and the colors from the previous snapshot
and moves the cursor back.  A decode exception propagates (`Except.error`). -/
def undo (s : GridState) : Except (List Char) (Bool × GridState) :=
  if s.history.length = 0 then .ok (false, s)
  else if s.histIndex ≤ 0 then .ok (false, s)
  else do
    let snap := s.history.getD (s.histIndex - 1).toNat []
    let parts := splitOnPipe snap
    let u ← decodeNumGrid (parts.getD 3 []) s.size
    let ce ← decodeDigitCube (parts.getD 4 []) s.size
    let co ← decodeDigitCube (parts.getD 5 []) s.size
    let cl ← decodeColors (parts.getD 6 []) s.size
    let s2 := { s with user := u, center := ce, corner := co, colors := cl }
    .ok (true, { s2 with histIndex := s.histIndex - 1 })

/-- `redo`: symmetric to `undo`, requires `cursor < length − 1`. -/
def redo (s : GridState) : Except (List Char) (Bool × GridState) :=
  if s.history.length = 0 then .ok (false, s)
  else if (s.history.length : Int) - 1 ≤ s.histIndex then .ok (false, s)
  else do
    let snap := s.history.getD (s.histIndex + 1).toNat []
    let parts := splitOnPipe snap
    let u ← decodeNumGrid (parts.getD 3 []) s.size
    let ce ← decodeDigitCube (parts.getD 4 []) s.size
    let co ← decodeDigitCube (parts.getD 5 []) s.size
    let cl ← decodeColors (parts.getD 6 []) s.size
    let s2 := { s with user := u, center := ce, corner := co, colors := cl }
    .ok (true, { s2 with histIndex := s.histIndex + 1 })

/-! ### `importState` -/

/-- Decimal rendering of the parsed size, as template interpolation does. -/
def intToChars (n : Int) : List Char :=
  (toString n).toList

def sizeMismatchMsg (parsedSize : Int) (size : Nat) : List Char :=
  "State size ".toList ++ intToChars parsedSize ++
    " does not match grid size ".toList ++ intToChars (size : Int)

/-- `importState`: header check, segment-count check, size check, then the
four body decodes; only if every decode succeeds are the grids replaced
("preset wins" clears user values and notes under incoming preset cells).
History recording is suppressed for the whole import, so history and cursor
are untouched.  An error leaves the state unchanged (`Except.error` is
raised before any setter runs). -/
def importState (s : GridState) (encoded : List Char) : Except (List Char) GridState :=
  if ¬ (hdrSG1 ++ ['|']).isPrefixOf encoded then .error msgNoHeader
  else
    let parts := splitOnPipe encoded
    if parts.length < 7 then .error msgMissingSegs
    else
      let parsedSize := from36 (parts.getD 1 [])
      if parsedSize ≠ (s.size : Int) then .error (sizeMismatchMsg parsedSize s.size)
      else do
        let nextPreset ← decodeNumGrid (parts.getD 2 []) s.size
        let nextUser ← decodeNumGrid (parts.getD 3 []) s.size
        let nextCenter ← decodeDigitCube (parts.getD 4 []) s.size
        let nextCorner ← decodeDigitCube (parts.getD 5 []) s.size
        let nextColors ← decodeColors (parts.getD 6 []) s.size
        let user := (List.range s.size).map fun r => (List.range s.size).map fun c =>
          if 0 < gridGet nextPreset r c then 0 else gridGet nextUser r c
        let center := (List.range s.size).map fun r => (List.range s.size).map fun c =>
          if 0 < gridGet nextPreset r c
          then List.replicate (cubeCell nextCenter r c).length 0
          else cubeCell nextCenter r c
        let corner := (List.range s.size).map fun r => (List.range s.size).map fun c =>
          if 0 < gridGet nextPreset r c
          then List.replicate (cubeCell nextCorner r c).length 0
          else cubeCell nextCorner r c
        let s2 := { s with preset := nextPreset, user := user, center := center }
        .ok { s2 with corner := corner, colors := nextColors }

/-! ### Pointer and keyboard gestures (grid.tsx handlers)

Each cell passed to the handlers comes from `getCellFromPointer`, which
clamps both coordinates into `[0, size − 1]` (`clampIndex`); the clamp is
applied here at the top of each pointer handler.  The emptiness-normalizing
`useEffect` (selection in its dependency array) re-runs after every handler
that replaces the selection array and is modelled by `applyEffect` composed
at those points; handlers that leave the selection untouched (`finishDrag`,
the already-visited move branches) do not re-trigger it. -/

/-- The emptiness-normalizing effect: with no selected cell, current becomes
undefined and the stack empties. -/
def applyEffect (s : GridState) : GridState :=
  if hasAnySelected s.selection then s
  else { s with current := none, stack := [] }

/-- `clampIndex`. -/
def clampIndex (v max : Nat) : Nat :=
  min v (max - 1)

/-- `onPointerDownGrid`. -/
def pointerDown (s : GridState) (r0 c0 : Nat) (ctrl shiftKey : Bool) : GridState :=
  let r := clampIndex r0 s.size
  let c := clampIndex c0 s.size
  let base := if ctrl then s.selection else createEmptySelection s.size
  let key := r * s.size + c
  if ctrl ∧ selGet base r c then
    -- paint-erase
    let working := selSet base r c false
    let st := removeFromStack s.stack (r, c)
    let prevIdx := indexInStack s.stack (r, c)
    let tgt := if 0 < prevIdx then s.stack.get? (prevIdx - 1).toNat else st.getLast?
    applyEffect { s with
      selection := working
      stack := st
      current := tgt
      drag := some ⟨.paintErase, (r, c), base, working, [key], some (r, c)⟩ }
  else if ctrl then
    -- paint-add keeping the previous selection
    let working := selSet base r c true
    applyEffect { s with
      selection := working
      stack := pushIfAbsent s.stack (r, c)
      current := some (r, c)
      drag := some ⟨.paintAdd, (r, c), base, working, [key], some (r, c)⟩ }
  else if shiftKey then
    -- rect
    let working := selSet (createEmptySelection s.size) r c true
    applyEffect { s with
      selection := working
      stack := [(r, c)]
      current := some (r, c)
      drag := some ⟨.rect, (r, c), base, working, [key], some (r, c)⟩ }
  else
    -- fresh paint-add
    let working := selSet base r c true
    applyEffect { s with
      selection := working
      stack := [(r, c)]
      current := some (r, c)
      drag := some ⟨.paintAdd, (r, c), base, working, [key], some (r, c)⟩ }

/-- The cells of the axis-aligned rectangle spanned by two corners, set into
an empty matrix (the nested loops of the rect branch). -/
def rectCellList (sr sc r c : Nat) : List Cell :=
  (List.range' (min sr r) (max sr r + 1 - min sr r)).flatMap fun rr =>
    (List.range' (min sc c) (max sc c + 1 - min sc c)).map fun cc => (rr, cc)

def rectSelection (size sr sc r c : Nat) : Selection :=
  (rectCellList sr sc r c).foldl (fun w rc => selSet w rc.1 rc.2 true)
    (createEmptySelection size)

/-- `onPointerMoveGrid`. -/
def pointerMove (s : GridState) (r0 c0 : Nat) : GridState :=
  match s.drag with
  | none => s
  | some info =>
    let r := clampIndex r0 s.size
    let c := clampIndex c0 s.size
    let key := r * s.size + c
    match info.mode with
    | .rect =>
      let working := rectSelection s.size info.start.1 info.start.2 r c
      applyEffect { s with
        selection := working
        stack := stackFromMatrix working
        drag := some { info with working := working, last := some (r, c) } }
    | .paintAdd =>
      if key ∈ info.visited then s
      else
        let working := selSet info.working r c true
        let info2 := { info with working := working, visited := key :: info.visited, last := some (r, c) }
        applyEffect { s with
          selection := working
          stack := pushIfAbsent s.stack (r, c)
          drag := some info2 }
    | .paintErase =>
      if key ∈ info.visited then s
      else if selGet info.working r c then
        let working := selSet info.working r c false
        let st1 := removeFromStack s.stack (r, c)
        if s.current = some (r, c) then
          let st2 := removeFromStack st1 (r, c)
          let info2 := { info with working := working, visited := key :: info.visited, last := some (r, c) }
          applyEffect { s with
            selection := working
            stack := st2
            current := st2.getLast?
            drag := some info2 }
        else
          let info2 := { info with working := working, visited := key :: info.visited, last := some (r, c) }
          applyEffect { s with
            selection := working
            stack := st1
            drag := some info2 }
      else
        { s with drag := some { info with visited := key :: info.visited } }

/-- `finishDrag` (shared by `onPointerUpGrid` and `onPointerLeaveGrid`): for
rect and paint-add the current cell becomes the last visited cell (`info.last
?? info.start`); the drag record is discarded.  The selection array is not
replaced, so the normalizing effect does not re-run here. -/
def finishDrag (s : GridState) : GridState :=
  match s.drag with
  | none => s
  | some info =>
    if info.mode = .rect ∨ info.mode = .paintAdd then
      { s with current := some (info.last.getD info.start), drag := none }
    else
      { s with drag := none }

/-- `clamp` from lib/utils, over `Int`. -/
def clampInt (n lo hi : Int) : Int :=
  min hi (max lo n)

/-- `moveCurrent` (arrow keys): moves from the current cell (or the first
selected cell, or `(0,0)`), clamped by `neighbor`, and collapses the
selection to that single cell. -/
def moveCurrent (s : GridState) (dr dc : Int) : GridState :=
  let base : Cell :=
    match s.current with
    | some b => b
    | none => if hasAnySelected s.selection then (stackFromMatrix s.selection).getD 0 (0, 0)
              else (0, 0)
  let nr := (clampInt ((base.1 : Int) + dr) 0 ((s.size : Int) - 1)).toNat
  let nc := (clampInt ((base.2 : Int) + dc) 0 ((s.size : Int) - 1)).toNat
  applyEffect { s with
    current := some (nr, nc)
    selection := buildSingleSelection s.size nr nc
    stack := [(nr, nc)] }

/-- The Escape branch of `onKeyDown`. -/
def escapeKey (s : GridState) : GridState :=
  applyEffect { s with
    selection := createEmptySelection s.size
    current := none
    stack := [] }

/-- One user-interface event, carrying the board cell derived from the
pointer position. -/
inductive UIOp where
  | down (r c : Nat) (ctrl shiftKey : Bool)
  | move (r c : Nat)
  | up
  | arrow (dr dc : Int)
  | escape
deriving DecidableEq

def applyUIOp (s : GridState) : UIOp → GridState
  | .down r c ctrl shiftKey => pointerDown s r c ctrl shiftKey
  | .move r c => pointerMove s r c
  | .up => finishDrag s
  | .arrow dr dc => moveCurrent s dr dc
  | .escape => escapeKey s

def runUIOps (s : GridState) (ops : List UIOp) : GridState :=
  ops.foldl applyUIOp s

/-! ### Specification-side definitions used to state the claims -/

/-- All cells of an `n × m` board in row-major order. -/
def allCellsRowMajor (n m : Nat) : List Cell :=
  (List.range n).flatMap fun r => (List.range m).map fun c => (r, c)

/-- A matrix has the exact `size × size` shape. -/
abbrev selShape (sel : Selection) (size : Nat) : Prop :=
  sel.length = size ∧ ∀ row ∈ sel, row.length = size

/-- A number grid has the exact `size × size` shape. -/
abbrev gridShape (g : NumberGrid) (size : Nat) : Prop :=
  g.length = size ∧ ∀ row ∈ g, row.length = size

/-- A cube has the exact `size × size × (size + 1)` shape. -/
abbrev cubeShape (cube : DigitCube) (size : Nat) : Prop :=
  cube.length = size ∧ ∀ row ∈ cube, row.length = size ∧
    ∀ cell ∈ row, cell.length = size + 1

/-- A color grid has the exact `size × size` shape. -/
abbrev colorShape (g : ColorGrid) (size : Nat) : Prop :=
  g.length = size ∧ ∀ row ∈ g, row.length = size

/-- A cube cell "marks only digits in `[1, N]`": flags are 0/1 presence bits
and the unused slot 0 is clear. -/
abbrev cellMarksOnly (cell : List Nat) : Prop :=
  cell.getD 0 0 = 0 ∧ ∀ v ∈ cell, v = 0 ∨ v = 1

/-- Whether a drag is active after a list of events (pointer-down opens a
drag, pointer-up closes it; keys leave `dragRef` untouched). -/
def dragActiveAfter (ops : List UIOp) : Bool :=
  ops.foldl
    (fun active op =>
      match op with
      | .down _ _ _ _ => true
      | .up => false
      | _ => active)
    false

/-- `ops` never presses Escape during an active drag. -/
def escSafe (ops : List UIOp) : Bool :=
  (ops.foldl
    (fun st op =>
      match st, op with
      | (ok, _), .down _ _ _ _ => (ok, true)
      | (ok, _), .up => (ok, false)
      | (ok, active), .escape => (ok && !active, active)
      | (ok, active), _ => (ok, active))
    (true, false)).1

/-- The selection-emptiness invariant of the spec: no selected cell forces an
undefined current cell and an empty stack. -/
def emptinessInv (s : GridState) : Prop :=
  hasAnySelected s.selection = false → s.current = none ∧ s.stack = []

/-- Strengthened inductive invariant for the gesture state machine. -/
def gestureInv (s : GridState) : Prop :=
  selShape s.selection s.size ∧
  (∀ info, s.drag = some info → selShape info.working s.size) ∧
  emptinessInv s ∧
  (∀ info, s.drag = some info → info.mode ≠ .paintErase →
    hasAnySelected s.selection = true) ∧
  (∀ info, s.drag = some info → info.start.1 < s.size ∧ info.start.2 < s.size)

-- Decidable equality for decode results, used to evaluate concrete runs.
deriving instance DecidableEq for Except

/-- The all-zero flag list of one cell of a size-32 cube. -/
def zc32 : List Nat := List.replicate 33 0

/-- A size-32 cube cell with every digit `1..32` marked. -/
def ce32cell : List Nat := 0 :: List.replicate 32 1

/-- A 32×32 note cube whose cell (0,0) marks all 32 digits and whose other
cells are empty. -/
def ce32 : DigitCube :=
  (ce32cell :: List.replicate 31 zc32) :: List.replicate 31 (List.replicate 32 zc32)

/-- Size-1 SG1 snapshots used to exercise the history log on a concrete
instance. -/
def hist4a : List Char := "SG1|1|0|0|10|10|0|".toList
def hist4b : List Char := "SG1|1|0|5|10|10|0|".toList
def hist4c : List Char := "SG1|1|0|7|10|10|0|".toList

/-- A size-1 instance whose history holds two snapshots with the cursor on
the second. -/
def claim4state : GridState :=
  { initState 1 (createNumberGrid 1) with history := [hist4a, hist4b], histIndex := 1 }

/-- The state reached from `claim4state` by one successful undo. -/
def claim4stateAfter : GridState :=
  { claim4state with histIndex := 0 }

/-- Recursive form of the Escape-safety scan: `true` when no Escape occurs
while a drag is active (second argument: whether a drag is active at the
start). -/
def escAux : List UIOp → Bool → Bool
  | [], _ => true
  | .down _ _ _ _ :: rest, _ => escAux rest true
  | .up :: rest, _ => escAux rest false
  | .escape :: rest, active => !active && escAux rest active
  | .move _ _ :: rest, active => escAux rest active
  | .arrow _ _ :: rest, active => escAux rest active

/-- A 1×1 instance whose only cell is preset and current. -/
def claim2st : GridState :=
  { initState 1 [[1]] with current := some (0, 0) }

/-- A 2×2 instance with cells (0,0) and (0,1) selected in that stack order
and the first cell preset. -/
def claim2wst : GridState :=
  { initState 2 [[1, 0], [0, 0]] with
    selection := [[true, true], [false, false]]
    stack := [(0, 0), (0, 1)]
    current := some (0, 1) }

/-- A 2×2 instance with the diagonal selected. -/
def claim5st : GridState :=
  { initState 2 (createNumberGrid 2) with
    selection := [[true, false], [false, true]]
    stack := [(0, 0), (1, 1)]
    current := some (1, 1) }

/-- A 3×3 instance with one pre-selected cell away from the coming rect
gesture. -/
def claim7st : GridState :=
  { initState 3 (createNumberGrid 3) with
    selection := [[false, false, false], [false, false, false], [false, false, true]]
    stack := [(2, 2)]
    current := some (2, 2) }

/-- Ctrl-clicks selecting all four cells of a 2×2 board, then a ctrl press on
(1,0), erasing it and leaving its drag active. -/
def claim8ops9 : List UIOp :=
  [.down 0 0 true false, .up, .down 0 1 true false, .up,
   .down 1 0 true false, .up, .down 1 1 true false, .up,
   .down 1 0 true false]

def claim8st9 : GridState :=
  runUIOps (initState 2 (createNumberGrid 2)) claim8ops9

/-- The same board right before the ninth event (all four cells selected, no
drag active). -/
def claim8st8 : GridState :=
  runUIOps (initState 2 (createNumberGrid 2)) (claim8ops9.take 8)

/-- Events for the C6 witness: a finished paint drag, then Escape. -/
def claim6ops : List UIOp :=
  [.down 0 0 false false, .move 1 1, .up, .escape]

/-- The drag record active in `claim8st9`. -/
def claim8info : DragInfo :=
  ⟨.paintErase, (1, 0), [[true, true], [true, true]], [[true, true], [false, true]],
    [2], some (1, 0)⟩

/-! ### Theorems: base-36 primitives -/

theorem to36Aux_congr : ∀ f₁ f₂ n, n < f₁ → n < f₂ → to36Aux f₁ n = to36Aux f₂ n := by
  intro f₁
  induction f₁ with
  | zero => intro f₂ n h; omega
  | succ f ih =>
    intro f₂ n h₁ h₂
    cases f₂ with
    | zero => omega
    | succ f' =>
      simp only [to36Aux]
      by_cases hn : n < 36
      · simp [hn]
      · simp only [hn, if_false]
        have hd : n / 36 < f := by
          have : n / 36 < n := Nat.div_lt_self (by omega) (by omega)
          omega
        have hd' : n / 36 < f' := by
          have : n / 36 < n := Nat.div_lt_self (by omega) (by omega)
          omega
        rw [ih f' (n / 36) hd hd']

theorem to36_unfold (n : Nat) :
    to36 n = if n < 36 then [to36Digit n] else to36 (n / 36) ++ [to36Digit (n % 36)] := by
  unfold to36
  conv_lhs => rw [to36Aux]
  by_cases hn : n < 36
  · simp [hn]
  · simp only [hn, if_false]
    rw [to36Aux_congr n (n / 36 + 1) (n / 36)
      (by have : n / 36 < n := Nat.div_lt_self (by omega) (by omega); omega) (by omega)]

theorem digit36_to36Digit : ∀ d, d < 36 → digit36 (to36Digit d) = some d := by
  decide

theorem to36_ne_nil (n : Nat) : to36 n ≠ [] := by
  rw [to36_unfold]
  by_cases hn : n < 36 <;> simp [hn]

theorem to36_length_pos (n : Nat) : 0 < (to36 n).length := by
  cases h : to36 n with
  | nil => exact absurd h (to36_ne_nil n)
  | cons a l => simp

theorem to36_all_digits (n : Nat) : ∀ c ∈ to36 n, (digit36 c).isSome := by
  induction n using Nat.strong_induction_on with
  | _ n ih =>
    rw [to36_unfold]
    by_cases hn : n < 36
    · simp only [hn, if_true, List.mem_singleton]
      intro c hc
      subst hc
      rw [digit36_to36Digit n hn]
      rfl
    · simp only [hn, if_false, List.mem_append, List.mem_singleton]
      intro c hc
      rcases hc with hc | hc
      · exact ih (n / 36) (Nat.div_lt_self (by omega) (by omega)) c hc
      · subst hc
        rw [digit36_to36Digit (n % 36) (Nat.mod_lt _ (by omega))]
        rfl

theorem valOfDigits_append_one (ds : List Nat) (d : Nat) :
    valOfDigits (ds ++ [d]) = valOfDigits ds * 36 + d := by
  unfold valOfDigits
  rw [List.foldl_append]
  rfl

theorem val_to36 (n : Nat) :
    valOfDigits ((to36 n).map fun c => (digit36 c).getD 0) = n := by
  induction n using Nat.strong_induction_on with
  | _ n ih =>
    rw [to36_unfold]
    by_cases hn : n < 36
    · simp only [hn, if_true, List.map_cons, List.map_nil]
      simp [valOfDigits, digit36_to36Digit n hn]
    · simp only [hn, if_false, List.map_append, List.map_cons, List.map_nil]
      rw [valOfDigits_append_one]
      rw [ih (n / 36) (Nat.div_lt_self (by omega) (by omega))]
      rw [digit36_to36Digit (n % 36) (Nat.mod_lt _ (by omega))]
      simp only [Option.getD_some]
      omega

theorem to36_length_le (n k : Nat) (hk : 1 ≤ k) (h : n < 36 ^ k) :
    (to36 n).length ≤ k := by
  induction k generalizing n with
  | zero => omega
  | succ k ih =>
    rw [to36_unfold]
    by_cases hn : n < 36
    · simp only [hn, if_true, List.length_singleton]
      omega
    · simp only [hn, if_false, List.length_append, List.length_cons, List.length_nil]
      have hk1 : 1 ≤ k := by
        rcases Nat.eq_zero_or_pos k with hkz | hkp
        · subst hkz
          norm_num at h
          omega
        · omega
      have hlt : n / 36 < 36 ^ k := by
        rw [Nat.div_lt_iff_lt_mul (by omega)]
        calc n < 36 ^ (k + 1) := h
        _ = 36 ^ k * 36 := by ring
      have := ih (n / 36) hk1 hlt
      omega

theorem lt_pow_to36_length (n : Nat) : n < 36 ^ (to36 n).length := by
  induction n using Nat.strong_induction_on with
  | _ n ih =>
    rw [to36_unfold]
    by_cases hn : n < 36
    · simp only [hn, if_true, List.length_singleton, pow_one]
    · simp only [hn, if_false, List.length_append, List.length_cons, List.length_nil]
      have h1 : n / 36 < 36 ^ (to36 (n / 36)).length :=
        ih (n / 36) (Nat.div_lt_self (by omega) (by omega))
      calc n < 36 * (n / 36) + 36 := by
              have := Nat.mod_lt n (show 0 < 36 by omega)
              have := Nat.div_add_mod n 36
              omega
      _ = 36 * (n / 36 + 1) := by ring
      _ ≤ 36 * 36 ^ (to36 (n / 36)).length := by
              have : n / 36 + 1 ≤ 36 ^ (to36 (n / 36)).length := h1
              exact Nat.mul_le_mul_left _ this
      _ = 36 ^ ((to36 (n / 36)).length + 1) := by ring

theorem digit36_not_ws {c : Char} (h : (digit36 c).isSome) : jsWhitespace c = false := by
  simp only [digit36] at h
  unfold jsWhitespace
  simp only [List.elem_eq_mem, List.mem_cons, List.mem_nil_iff, or_false,
    decide_eq_false_iff_not]
  split_ifs at h with h1 h2 h3 <;> [skip; skip; skip; simp at h] <;> omega

theorem digit36_ne_special {c : Char} (h : (digit36 c).isSome) :
    c ≠ '-' ∧ c ≠ '+' ∧ c ≠ '|' := by
  unfold digit36 at h
  refine ⟨?_, ?_, ?_⟩ <;> intro hc <;> subst hc <;> simp at h

theorem takeDigits36_all (s : List Char) (hd : ∀ c ∈ s, (digit36 c).isSome) :
    takeDigits36 s = s.map fun c => (digit36 c).getD 0 := by
  unfold takeDigits36
  congr 1
  induction s with
  | nil => rfl
  | cons a l ih =>
    rw [List.takeWhile_cons]
    simp only [hd a (List.mem_cons_self a l), if_true]
    rw [ih fun c hc => hd c (List.mem_cons_of_mem a hc)]

theorem from36_digits (s : List Char) (hne : s ≠ [])
    (hd : ∀ c ∈ s, (digit36 c).isSome) :
    from36 s = (valOfDigits (s.map fun c => (digit36 c).getD 0) : Int) := by
  cases s with
  | nil => exact absurd rfl hne
  | cons a l =>
    have ha : (digit36 a).isSome := hd a (List.mem_cons_self a l)
    have hws : jsWhitespace a = false := digit36_not_ws ha
    have hsp := digit36_ne_special ha
    unfold from36
    rw [List.dropWhile_cons]
    simp only [hws, Bool.false_eq_true, if_false]
    simp only [hsp.1, hsp.2.1, if_false]
    rw [takeDigits36_all (a :: l) hd]
    have : (a :: l).map (fun c => (digit36 c).getD 0) ≠ [] := by simp
    simp only [this, if_false]

theorem valOfDigits_replicate_zero_append (k : Nat) (ds : List Nat) :
    valOfDigits (List.replicate k 0 ++ ds) = valOfDigits ds := by
  induction k with
  | zero => simp
  | succ k ih =>
    rw [List.replicate_succ, List.cons_append]
    unfold valOfDigits at *
    simpa using ih

theorem from36_single_digit {c : Char} {d : Nat} (h : digit36 c = some d) :
    from36 [c] = (d : Int) := by
  rw [from36_digits [c] (by simp) (by simp [h])]
  simp [valOfDigits, h]

theorem from36_to36 (n : Nat) : from36 (to36 n) = (n : Int) := by
  rw [from36_digits (to36 n) (to36_ne_nil n) (to36_all_digits n), val_to36]

theorem padStart_all_digits {s : List Char} (w : Nat)
    (hd : ∀ c ∈ s, (digit36 c).isSome) :
    ∀ c ∈ padStart s w, (digit36 c).isSome := by
  intro c hc
  unfold padStart at hc
  rw [List.mem_append] at hc
  rcases hc with hc | hc
  · rw [List.eq_of_mem_replicate hc]
    decide
  · exact hd c hc

theorem padStart_length {s : List Char} {w : Nat} (hlw : s.length ≤ w) :
    (padStart s w).length = w := by
  unfold padStart
  simp only [List.length_append, List.length_replicate]
  omega

theorem from36_padStart_to36 (n w : Nat) :
    from36 (padStart (to36 n) w) = (n : Int) := by
  rw [from36_digits _ ?hne (padStart_all_digits w (to36_all_digits n))]
  · unfold padStart
    rw [List.map_append]
    have hz : (List.replicate (w - (to36 n).length) '0').map
        (fun c => (digit36 c).getD 0) = List.replicate (w - (to36 n).length) 0 := by
      rw [List.map_replicate]
      rfl
    rw [hz, valOfDigits_replicate_zero_append, val_to36]
  · unfold padStart
    have := to36_ne_nil n
    intro hcontra
    rw [List.append_eq_nil] at hcontra
    exact this hcontra.2

/-! ### Theorems: generic list and grid lemmas -/

theorem foldl_preserve {α β : Type _} (P : α → Prop) (f : α → β → α)
    (hf : ∀ x b, P x → P (f x b)) :
    ∀ (l : List β) (a : α), P a → P (l.foldl f a) := by
  intro l
  induction l with
  | nil => intro a ha; exact ha
  | cons b t ih => intro a ha; exact ih (f a b) (hf a b ha)

theorem flatten_chunk_extract {α : Type _} (w : Nat) :
    ∀ (cs : List (List α)) (i : Nat), (∀ ch ∈ cs, ch.length = w) → i < cs.length →
      (cs.flatten.drop (i * w)).take w = cs.getD i [] := by
  intro cs
  induction cs with
  | nil => intro i _ hi; simp at hi
  | cons ch t ih =>
    intro i hlen hi
    cases i with
    | zero =>
      simp only [List.flatten_cons, Nat.zero_mul, List.drop_zero, List.getD_cons_zero]
      rw [← hlen ch (List.mem_cons_self ch t)]
      exact List.take_left ch t.flatten
    | succ i =>
      have hch : ch.length = w := hlen ch (List.mem_cons_self ch t)
      simp only [List.flatten_cons, List.getD_cons_succ]
      have hdrop : (ch ++ t.flatten).drop ((i + 1) * w) = t.flatten.drop (i * w) := by
        have : (i + 1) * w = ch.length + i * w := by rw [hch]; ring
        rw [this, List.drop_append]
      rw [hdrop]
      exact ih i (fun c hc => hlen c (List.mem_cons_of_mem ch hc)) (by simpa using hi)

theorem flatten_length_uniform {α : Type _} (w : Nat) (cs : List (List α))
    (h : ∀ ch ∈ cs, ch.length = w) : cs.flatten.length = cs.length * w := by
  induction cs with
  | nil => simp
  | cons ch t ih =>
    simp only [List.flatten_cons, List.length_append, List.length_cons]
    rw [h ch (List.mem_cons_self ch t), ih fun c hc => h c (List.mem_cons_of_mem ch hc)]
    ring

theorem flatten_getElem?_uniform {α : Type _} (w : Nat) (cs : List (List α)) (i j : Nat)
    (h : ∀ ch ∈ cs, ch.length = w) (hi : i < cs.length) (hj : j < w) :
    cs.flatten[i * w + j]? = (cs.getD i [])[j]? := by
  have htake : ((cs.flatten.drop (i * w)).take w)[j]? = (cs.flatten.drop (i * w))[j]? :=
    List.getElem?_take_of_lt hj
  rw [← List.getElem?_drop cs.flatten (i * w) j, ← htake,
    flatten_chunk_extract w cs i h hi]

theorem rowMajorLength {α : Type _} (f : Nat → Nat → α) (size : Nat) :
    ((List.range size).flatMap fun r => (List.range size).map fun c => f r c).length
      = size * size := by
  show (((List.range size).map fun r =>
    (List.range size).map fun c => f r c).flatten).length = size * size
  rw [flatten_length_uniform size]
  · simp
  · intro ch hch
    rcases List.mem_map.mp hch with ⟨r, _, rfl⟩
    simp

theorem rowMajorGetElem? {α : Type _} (f : Nat → Nat → α) (size r c : Nat)
    (hr : r < size) (hc : c < size) :
    ((List.range size).flatMap fun r => (List.range size).map fun c => f r c)[r * size + c]?
      = some (f r c) := by
  show (((List.range size).map fun r =>
    (List.range size).map fun c => f r c).flatten)[r * size + c]? = some (f r c)
  rw [flatten_getElem?_uniform size _ r c ?huni (by simpa using hr) hc]
  · have hrow : ((List.range size).map fun r =>
        (List.range size).map fun c => f r c).getD r [] =
        (List.range size).map fun c => f r c := by
      rw [List.getD_eq_getElem?_getD]
      rw [List.getElem?_map]
      simp [List.getElem?_range hr]
    rw [hrow, List.getElem?_map, List.getElem?_range hc]
    rfl
  · intro ch hch
    rcases List.mem_map.mp hch with ⟨r', _, rfl⟩
    simp

theorem rowMajorGetD {α : Type _} (f : Nat → Nat → α) (size r c : Nat) (d : α)
    (hr : r < size) (hc : c < size) :
    ((List.range size).flatMap fun r => (List.range size).map fun c => f r c).getD
      (r * size + c) d = f r c := by
  rw [List.getD_eq_getElem?_getD, rowMajorGetElem? f size r c hr hc]
  rfl

theorem rowMajorIndexLt (size r c : Nat) (hr : r < size) (hc : c < size) :
    r * size + c < size * size := by
  calc r * size + c < r * size + size := by omega
    _ = (r + 1) * size := by ring
    _ ≤ size * size := Nat.mul_le_mul_right size hr

/-- A list of lists of uniform shape equals its row-major reconstruction. -/
theorem grid_reconstruct {α : Type _} (d : α) (g : List (List α)) (n m : Nat)
    (h1 : g.length = n) (h2 : ∀ row ∈ g, row.length = m) :
    ((List.range n).map fun r => (List.range m).map fun c => (g.getD r []).getD c d) = g := by
  apply List.ext_getElem
  · simp [h1]
  · intro r hr hr'
    have hrn : r < n := by simpa using hr
    rw [List.getElem_map, List.getElem_range]
    have hrow : g.getD r [] = g[r] := by
      rw [List.getD_eq_getElem?_getD, List.getElem?_eq_getElem hr']
      rfl
    apply List.ext_getElem
    · simp [hrow, h2 g[r] (List.getElem_mem hr')]
    · intro c hcm hc'
      rw [List.getElem_map, List.getElem_range, hrow]
      rw [List.getD_eq_getElem?_getD, List.getElem?_eq_getElem hc']
      rfl

/-! ### Theorems: pipe splitting and joining -/

theorem splitOnPipe_no_pipe (a : List Char) (h : '|' ∉ a) : splitOnPipe a = [a] := by
  induction a with
  | nil => rfl
  | cons c t ih =>
    have hc : c ≠ '|' := fun hcp => h (hcp ▸ List.mem_cons_self c t)
    unfold splitOnPipe
    simp only [hc, if_false]
    rw [ih fun hm => h (List.mem_cons_of_mem c hm)]

theorem splitOnPipe_append_pipe (a rest : List Char) (h : '|' ∉ a) :
    splitOnPipe (a ++ '|' :: rest) = a :: splitOnPipe rest := by
  induction a with
  | nil => simp [splitOnPipe]
  | cons c t ih =>
    have hc : c ≠ '|' := fun hcp => h (hcp ▸ List.mem_cons_self c t)
    rw [List.cons_append]
    conv_lhs => rw [splitOnPipe]
    simp only [hc, if_false]
    rw [ih fun hm => h (List.mem_cons_of_mem c hm)]

theorem splitOnPipe_joinPipe : ∀ (parts : List (List Char)), parts ≠ [] →
    (∀ p ∈ parts, '|' ∉ p) → splitOnPipe (joinPipe parts) = parts := by
  intro parts
  induction parts with
  | nil => intro h; exact absurd rfl h
  | cons a t ih =>
    intro _ hp
    cases t with
    | nil => exact splitOnPipe_no_pipe a (hp a (List.mem_cons_self a []))
    | cons b t' =>
      show splitOnPipe (a ++ '|' :: joinPipe (b :: t')) = a :: b :: t'
      rw [splitOnPipe_append_pipe a _ (hp a (List.mem_cons_self a _))]
      rw [ih (by simp) fun p hm => hp p (List.mem_cons_of_mem a hm)]

theorem joinPipe_ends_pipe : ∀ (parts : List (List Char)), parts ≠ [] →
    (joinPipe (parts ++ [[]])).getLast? = some '|' := by
  intro parts
  induction parts with
  | nil => intro h; exact absurd rfl h
  | cons a t ih =>
    intro _
    cases t with
    | nil =>
      show (a ++ '|' :: joinPipe [[]]).getLast? = some '|'
      simp [joinPipe]
    | cons b t' =>
      show (a ++ '|' :: joinPipe ((b :: t') ++ [[]])).getLast? = some '|'
      rw [List.getLast?_append_of_ne_nil]
      · rw [List.getLast?_cons]
        have := ih (by simp)
        cases hj : joinPipe ((b :: t') ++ [[]]) with
        | nil =>
          exfalso
          rw [hj] at this
          simp at this
        | cons x xs =>
          rw [hj] at this
          simpa [List.getLast?_cons] using this
      · simp

/-! ### Theorems: number-grid codec round trip -/

/-- A list of known length equals its index-by-index reconstruction. -/
theorem list_reconstruct {α : Type _} (d : α) (l : List α) (n : Nat) (h : l.length = n) :
    ((List.range n).map fun i => l.getD i d) = l := by
  apply List.ext_getElem
  · simp [h]
  · intro i hi hi'
    rw [List.getElem_map, List.getElem_range]
    rw [List.getD_eq_getElem?_getD, List.getElem?_eq_getElem hi']
    rfl

theorem flatten_map_to36 (vals : List Nat) (hv : ∀ v ∈ vals, v < 36) :
    ((vals.map to36).flatten) = vals.map to36Digit := by
  induction vals with
  | nil => rfl
  | cons v t ih =>
    simp only [List.map_cons, List.flatten_cons]
    rw [to36_unfold]
    simp only [hv v (List.mem_cons_self v t), if_true]
    rw [ih fun x hx => hv x (List.mem_cons_of_mem v hx)]
    rfl

theorem encodeNumGrid_ok (g : NumberGrid) (size : Nat)
    (hv : ∀ v ∈ rowMajorVals g size, v < 36) :
    encodeNumGrid g size = .ok ((rowMajorVals g size).map to36Digit) := by
  unfold encodeNumGrid
  have : ((rowMajorVals g size).all fun v => v < 36) = true := by
    rw [List.all_eq_true]
    intro v hvm
    exact decide_eq_true (hv v hvm)
  rw [this, if_pos rfl, flatten_map_to36 _ hv]

theorem numSeg_length (g : NumberGrid) (size : Nat) :
    ((rowMajorVals g size).map to36Digit).length = size * size := by
  rw [List.length_map]
  exact rowMajorLength (gridGet g) size

theorem decodeNumGrid_encode (g : NumberGrid) (size : Nat)
    (hshape : gridShape g size) (hv : ∀ v ∈ rowMajorVals g size, v < 36) :
    decodeNumGrid ((rowMajorVals g size).map to36Digit) size = .ok g := by
  unfold decodeNumGrid
  rw [if_neg (by rw [numSeg_length]; omega)]
  congr 1
  have hcell : ∀ r c, r < size → c < size →
      (from36 [((rowMajorVals g size).map to36Digit).getD (r * size + c) '0']).toNat
        = gridGet g r c := by
    intro r c hr hc
    have hvrc : gridGet g r c < 36 := by
      apply hv
      unfold rowMajorVals
      rw [List.mem_flatMap]
      exact ⟨r, by simp [hr], List.mem_map.mpr ⟨c, by simp [hc], rfl⟩⟩
    have hrm : (rowMajorVals g size)[r * size + c]? = some (gridGet g r c) := by
      unfold rowMajorVals
      exact rowMajorGetElem? (gridGet g) size r c hr hc
    have hidx : ((rowMajorVals g size).map to36Digit)[r * size + c]?
        = some (to36Digit (gridGet g r c)) := by
      rw [List.getElem?_map, hrm]
      rfl
    rw [List.getD_eq_getElem?_getD, hidx, Option.getD_some,
      from36_single_digit (digit36_to36Digit _ hvrc)]
    rfl
  calc ((List.range size).map fun r => (List.range size).map fun c =>
        (from36 [((rowMajorVals g size).map to36Digit).getD (r * size + c) '0']).toNat)
      = (List.range size).map fun r => (List.range size).map fun c => gridGet g r c := by
        apply List.map_congr_left
        intro r hr
        apply List.map_congr_left
        intro c hc
        exact hcell r c (List.mem_range.mp hr) (List.mem_range.mp hc)
    _ = g := grid_reconstruct 0 g size size hshape.1 hshape.2

/-! ### Theorems: note-cube codec round trip -/

theorem maskWidth_eq (size : Nat) : maskWidthForSize size = (to36 (2 ^ size - 1)).length := by
  unfold maskWidthForSize
  have := to36_length_pos (2 ^ size - 1)
  omega

theorem maskWidth_pos (size : Nat) : 1 ≤ maskWidthForSize size := by
  unfold maskWidthForSize
  omega

theorem maskWidth_le_seven (size : Nat) (hsize : size ≤ 31) : maskWidthForSize size ≤ 7 := by
  rw [maskWidth_eq]
  apply to36_length_le _ 7 (by omega)
  have h1 : (2 : Nat) ^ size ≤ 2 ^ 31 := Nat.pow_le_pow_right (by omega) hsize
  have h2 : (2 : Nat) ^ 31 < 36 ^ 7 := by norm_num
  omega

theorem cellMaskPattern_testBit (cell : List Nat) (size : Nat) (hsize : size ≤ 32) (k : Nat) :
    (cellMaskPattern cell size).testBit k
      = (decide (k < size) && decide (cell.getD (k + 1) 0 ≠ 0)) := by
  induction size with
  | zero => simp [cellMaskPattern, Nat.zero_testBit]
  | succ n ih =>
    unfold cellMaskPattern at *
    rw [List.range_succ, List.foldl_append, List.foldl_cons, List.foldl_nil]
    have hn32 : n % 32 = n := Nat.mod_eq_of_lt (by omega)
    by_cases hflag : cell.getD (n + 1) 0 ≠ 0
    · rw [if_pos hflag, hn32, Nat.testBit_or, ih (by omega), Nat.testBit_two_pow]
      by_cases hk : k = n
      · subst hk
        simp [hflag, show ¬(k < k) by omega, show k < k + 1 by omega,
          ← List.getD_eq_getElem?_getD]
      · simp only [decide_eq_false_iff_not.mpr (show ¬(n = k) by omega), Bool.or_false]
        by_cases hkn : k < n
        · simp [hkn, show k < n + 1 by omega]
        · simp [hkn, show ¬(k < n + 1) by omega]
    · rw [if_neg hflag, ih (by omega)]
      by_cases hk : k = n
      · subst hk
        simp only [not_not] at hflag
        simp [hflag, show ¬(k < k) by omega, ← List.getD_eq_getElem?_getD]
      · by_cases hkn : k < n
        · simp [hkn, show k < n + 1 by omega]
        · simp [hkn, show ¬(k < n + 1) by omega]

theorem cellMaskPattern_lt (cell : List Nat) (size : Nat) (hsize : size ≤ 32) :
    cellMaskPattern cell size < 2 ^ size := by
  apply Nat.lt_pow_two_of_testBit
  intro i hi
  rw [cellMaskPattern_testBit cell size hsize i]
  simp [show ¬(i < size) by omega]

theorem maskToString_small (p : Nat) (h : p < 2 ^ 31) : maskToString p = to36 p := by
  unfold maskToString
  rw [if_pos h]

theorem maskChunk_length (cell : List Nat) (size : Nat) (hsize : size ≤ 31) :
    (padStart (maskToString (cellMaskPattern cell size)) (maskWidthForSize size)).length
      = maskWidthForSize size := by
  have hp : cellMaskPattern cell size < 2 ^ size := cellMaskPattern_lt cell size (by omega)
  have hp31 : cellMaskPattern cell size < 2 ^ 31 :=
    lt_of_lt_of_le hp (Nat.pow_le_pow_right (by omega) hsize)
  rw [maskToString_small _ hp31]
  apply padStart_length
  apply to36_length_le _ _ (maskWidth_pos size)
  have h1 : 2 ^ size - 1 < 36 ^ (to36 (2 ^ size - 1)).length := lt_pow_to36_length _
  have h2 : (36 : Nat) ^ (to36 (2 ^ size - 1)).length ≤ 36 ^ maskWidthForSize size := by
    apply Nat.pow_le_pow_right (by omega)
    rw [maskWidth_eq]
  have h3 : (0 : Nat) < 2 ^ size := Nat.pos_pow_of_pos size (by omega)
  omega

theorem decodeDigitCube_encode (cube : DigitCube) (size : Nat) (hsize : size ≤ 31)
    (hshape : cubeShape cube size)
    (hmarks : ∀ r, r < size → ∀ c, c < size → cellMarksOnly (cubeCell cube r c)) :
    decodeDigitCube (to36 (encodeDigitCube cube size).1 ++ (encodeDigitCube cube size).2)
      size = .ok cube := by
  have hwpos := maskWidth_pos size
  have hw7 := maskWidth_le_seven size hsize
  have hw36 : maskWidthForSize size < 36 := by omega
  -- the width digit
  have hwchar : to36 (maskWidthForSize size) = [to36Digit (maskWidthForSize size)] := by
    rw [to36_unfold, if_pos hw36]
  -- chunk lengths are uniform
  have hchunks : ∀ ch ∈ (rowMajorCells cube size).map fun cell =>
      padStart (maskToString (cellMaskPattern cell size)) (maskWidthForSize size),
      ch.length = maskWidthForSize size := by
    intro ch hch
    rcases List.mem_map.mp hch with ⟨cell, _, rfl⟩
    exact maskChunk_length cell size hsize
  show decodeDigitCube (to36 (maskWidthForSize size) ++
    ((rowMajorCells cube size).map fun cell =>
      padStart (maskToString (cellMaskPattern cell size)) (maskWidthForSize size)).flatten)
    size = .ok cube
  rw [hwchar, List.singleton_append]
  simp only [decodeDigitCube]
  rw [from36_single_digit (digit36_to36Digit _ hw36)]
  simp only [Int.toNat_natCast]
  rw [if_neg (by omega)]
  have hbodylen : (((rowMajorCells cube size).map fun cell =>
      padStart (maskToString (cellMaskPattern cell size)) (maskWidthForSize size)).flatten).length
        = size * size * maskWidthForSize size := by
    rw [flatten_length_uniform _ _ hchunks, List.length_map]
    show (rowMajorCells cube size).length * _ = _
    unfold rowMajorCells
    rw [rowMajorLength]
  rw [if_neg (by rw [hbodylen]; omega)]
  congr 1
  refine Eq.trans ?_ (grid_reconstruct [] cube size size hshape.1
    fun row hrow => (hshape.2 row hrow).1)
  apply List.map_congr_left
  intro r hrmem
  apply List.map_congr_left
  intro c hcmem
  have hr : r < size := List.mem_range.mp hrmem
  have hc : c < size := List.mem_range.mp hcmem
  -- the chunk of cell (r, c)
  have hidx : r * size + c < ((rowMajorCells cube size).map fun cell =>
      padStart (maskToString (cellMaskPattern cell size)) (maskWidthForSize size)).length := by
    rw [List.length_map]
    show _ < (rowMajorCells cube size).length
    unfold rowMajorCells
    rw [rowMajorLength]
    exact rowMajorIndexLt size r c hr hc
  have hchunk := flatten_chunk_extract (maskWidthForSize size) _ (r * size + c) hchunks hidx
  have hrm : (rowMajorCells cube size)[r * size + c]? = some (cubeCell cube r c) := by
    unfold rowMajorCells
    exact rowMajorGetElem? (cubeCell cube) size r c hr hc
  have hmap : ((rowMajorCells cube size).map fun cell =>
      padStart (maskToString (cellMaskPattern cell size)) (maskWidthForSize size)).getD
        (r * size + c) []
      = padStart (maskToString (cellMaskPattern (cubeCell cube r c) size))
          (maskWidthForSize size) := by
    rw [List.getD_eq_getElem?_getD, List.getElem?_map, hrm]
    rfl
  -- the parsed pattern
  have hp : cellMaskPattern (cubeCell cube r c) size < 2 ^ size :=
    cellMaskPattern_lt _ size (by omega)
  have hp31 : cellMaskPattern (cubeCell cube r c) size < 2 ^ 31 :=
    lt_of_lt_of_le hp (Nat.pow_le_pow_right (by omega) hsize)
  have hmod : ((cellMaskPattern (cubeCell cube r c) size : Int) % (2 ^ 32 : Int))
      = (cellMaskPattern (cubeCell cube r c) size : Int) := by
    apply Int.emod_eq_of_lt (by positivity)
    have hlt : (cellMaskPattern (cubeCell cube r c) size : Int) < ((2 ^ 31 : Nat) : Int) := by
      exact_mod_cast hp31
    push_cast at hlt ⊢
    omega
  simp only [hchunk, hmap, maskToString_small _ hp31, from36_padStart_to36, hmod,
    Int.toNat_natCast]
  show _ = cubeCell cube r c
  -- pointwise equality with the original cell
  have hlen : (cubeCell cube r c).length = size + 1 := by
    have hrdmem : cube.getD r [] ∈ cube := by
      have hgr : cube.getD r [] = cube.get ⟨r, by rw [hshape.1]; exact hr⟩ := by
        rw [List.getD_eq_getElem?_getD,
          List.getElem?_eq_getElem (by rw [hshape.1]; exact hr)]
        rfl
      rw [hgr]
      exact List.getElem_mem _
    have hrow := hshape.2 (cube.getD r []) hrdmem
    have hcell2 : cubeCell cube r c = (cube.getD r []).get ⟨c, by rw [hrow.1]; exact hc⟩ := by
      unfold cubeCell
      rw [List.getD_eq_getElem?_getD,
        List.getElem?_eq_getElem (by rw [hrow.1]; exact hc)]
      rfl
    rw [hcell2]
    exact hrow.2 _ (List.getElem_mem _)
  have hm := hmarks r hr c hc
  refine Eq.trans ?_ (list_reconstruct 0 (cubeCell cube r c) (size + 1) hlen)
  apply List.map_congr_left
  intro d hd
  have hdlt : d < size + 1 := List.mem_range.mp hd
  cases d with
  | zero => simpa using hm.1.symm
  | succ k =>
    have hk : k < size := by omega
    have hk32 : (k + 1 - 1) % 32 = k := by omega
    simp only [Nat.succ_ne_zero, if_false]
    rw [hk32, cellMaskPattern_testBit _ size (by omega) k]
    have hv : (cubeCell cube r c).getD (k + 1) 0 = 0 ∨
        (cubeCell cube r c).getD (k + 1) 0 = 1 := by
      have hkl : k + 1 < (cubeCell cube r c).length := by omega
      have hg : (cubeCell cube r c).getD (k + 1) 0
          = (cubeCell cube r c).get ⟨k + 1, hkl⟩ := by
        rw [List.getD_eq_getElem?_getD, List.getElem?_eq_getElem hkl]
        rfl
      rw [hg]
      exact hm.2 _ (List.getElem_mem _)
    rcases hv with hv | hv <;>
      simp [hv, hk, ← List.getD_eq_getElem?_getD]

/-! ### Theorems: colors codec round trip -/

theorem codeToColor_colorToCode (x : ColorName) : codeToColor (colorToCode x) = some x := by
  cases x <;> rfl

theorem colorToCode_digit_or_code (x : ColorName) : colorToCode x ≠ '|' := by
  cases x <;> decide

theorem colorEntry_cons (cl : List ColorName) (h : cl.length < 36) :
    colorEntry cl = to36Digit cl.length :: cl.map colorToCode := by
  unfold colorEntry
  rw [to36_unfold, if_pos h]
  rfl

theorem decodeColorCells_encode (cells : List (List ColorName))
    (h : ∀ cl ∈ cells, cl.length < 36) :
    decodeColorCells cells.length ((cells.map colorEntry).flatten) = .ok cells := by
  induction cells with
  | nil => rfl
  | cons cl t ih =>
    have hcl : cl.length < 36 := h cl (List.mem_cons_self cl t)
    simp only [List.map_cons, List.flatten_cons, List.length_cons]
    rw [colorEntry_cons cl hcl, List.cons_append]
    show decodeColorCells (t.length + 1) _ = _
    simp only [decodeColorCells]
    rw [from36_single_digit (digit36_to36Digit _ hcl), Int.toNat_natCast]
    have hlen : (cl.map colorToCode).length = cl.length := List.length_map _ _
    rw [show (cl.map colorToCode ++ (t.map colorEntry).flatten).take cl.length
        = cl.map colorToCode by rw [← hlen]; exact List.take_left _ _]
    rw [show (cl.map colorToCode ++ (t.map colorEntry).flatten).drop cl.length
        = (t.map colorEntry).flatten by rw [← hlen]; exact List.drop_left _ _]
    rw [List.filterMap_map]
    rw [show codeToColor ∘ colorToCode = some from funext codeToColor_colorToCode]
    rw [List.filterMap_some]
    rw [ih fun x hx => h x (List.mem_cons_of_mem cl hx)]
    rfl

theorem encodeColors_ok (g : ColorGrid) (size : Nat)
    (hlen : ∀ cl ∈ rowMajorColors g size, cl.length < 36) :
    encodeColors g size = .ok ((rowMajorColors g size).map colorEntry).flatten := by
  unfold encodeColors
  have : ((rowMajorColors g size).all fun cl => cl.length < 36) = true := by
    rw [List.all_eq_true]
    intro cl hcl
    exact decide_eq_true (hlen cl hcl)
  rw [this, if_pos rfl]

theorem decodeColors_encode (g : ColorGrid) (size : Nat) (hshape : colorShape g size)
    (hlen : ∀ cl ∈ rowMajorColors g size, cl.length < 36) :
    decodeColors (((rowMajorColors g size).map colorEntry).flatten) size = .ok g := by
  unfold decodeColors
  have hc : (rowMajorColors g size).length = size * size := by
    unfold rowMajorColors
    exact rowMajorLength _ size
  rw [← hc, decodeColorCells_encode _ hlen]
  show Except.ok _ = _
  congr 1
  refine Eq.trans ?_ (grid_reconstruct [] g size size hshape.1 hshape.2)
  apply List.map_congr_left
  intro r hrmem
  apply List.map_congr_left
  intro c hcmem
  have hr : r < size := List.mem_range.mp hrmem
  have hc' : c < size := List.mem_range.mp hcmem
  have : (rowMajorColors g size).getD (r * size + c) [] = colorsGet g r c := by
    unfold rowMajorColors
    exact rowMajorGetD (colorsGet g) size r c [] hr hc'
  rw [this]
  rfl

/-! ### Theorems: payload assembly -/

theorem digit_ne_pipe {c : Char} (h : (digit36 c).isSome) : c ≠ '|' :=
  (digit36_ne_special h).2.2

theorem to36_no_pipe (n : Nat) : '|' ∉ to36 n := by
  intro hm
  exact digit_ne_pipe (to36_all_digits n '|' hm) rfl

theorem flatten_to36_no_pipe (vals : List Nat) : '|' ∉ (vals.map to36).flatten := by
  intro hm
  rw [List.mem_flatten] at hm
  rcases hm with ⟨l, hl, hml⟩
  rcases List.mem_map.mp hl with ⟨v, _, rfl⟩
  exact to36_no_pipe v hml

theorem maskToString_no_pipe (p : Nat) : '|' ∉ maskToString p := by
  unfold maskToString
  split_ifs
  · exact to36_no_pipe p
  · intro hm
    rcases List.mem_cons.mp hm with hm | hm
    · exact absurd hm.symm (by decide)
    · exact to36_no_pipe _ hm

theorem padStart_no_pipe {s : List Char} (w : Nat) (h : '|' ∉ s) :
    '|' ∉ padStart s w := by
  unfold padStart
  intro hm
  rcases List.mem_append.mp hm with hm | hm
  · exact absurd (List.eq_of_mem_replicate hm) (by decide)
  · exact h hm

theorem cubeData_no_pipe (cube : DigitCube) (size : Nat) :
    '|' ∉ (encodeDigitCube cube size).2 := by
  show '|' ∉ ((rowMajorCells cube size).map fun cell =>
    padStart (maskToString (cellMaskPattern cell size)) (maskWidthForSize size)).flatten
  intro hm
  rw [List.mem_flatten] at hm
  rcases hm with ⟨l, hl, hml⟩
  rcases List.mem_map.mp hl with ⟨cell, _, rfl⟩
  exact padStart_no_pipe _ (maskToString_no_pipe _) hml

theorem cubeSeg_no_pipe (cube : DigitCube) (size : Nat) :
    '|' ∉ to36 (encodeDigitCube cube size).1 ++ (encodeDigitCube cube size).2 := by
  intro hm
  rcases List.mem_append.mp hm with hm | hm
  · exact to36_no_pipe _ hm
  · exact cubeData_no_pipe cube size hm

theorem colorEntry_no_pipe (cl : List ColorName) : '|' ∉ colorEntry cl := by
  unfold colorEntry
  intro hm
  rcases List.mem_append.mp hm with hm | hm
  · exact to36_no_pipe _ hm
  · rcases List.mem_map.mp hm with ⟨x, _, hx⟩
    exact colorToCode_digit_or_code x hx

theorem colorsSeg_no_pipe (g : ColorGrid) (size : Nat) :
    '|' ∉ ((rowMajorColors g size).map colorEntry).flatten := by
  intro hm
  rw [List.mem_flatten] at hm
  rcases hm with ⟨l, hl, hml⟩
  rcases List.mem_map.mp hl with ⟨cl, _, rfl⟩
  exact colorEntry_no_pipe cl hml

theorem numSeg_no_pipe (g : NumberGrid) (size : Nat)
    (hval : ∀ v ∈ rowMajorVals g size, v < 36) :
    '|' ∉ (rowMajorVals g size).map to36Digit := by
  intro hm
  rcases List.mem_map.mp hm with ⟨v, hv, hx⟩
  exact digit_ne_pipe (by rw [digit36_to36Digit v (hval v hv)]; rfl) hx

theorem buildPayload_ok (size : Nat) (preset user : NumberGrid) (center corner : DigitCube)
    (colors : ColorGrid)
    (hpv : ∀ v ∈ rowMajorVals preset size, v < 36)
    (huv : ∀ v ∈ rowMajorVals user size, v < 36)
    (hcl : ∀ cl ∈ rowMajorColors colors size, cl.length < 36) :
    buildPayload size preset user center corner colors = .ok (joinPipe
      [hdrSG1, to36 size,
        (rowMajorVals preset size).map to36Digit,
        (rowMajorVals user size).map to36Digit,
        to36 (encodeDigitCube center size).1 ++ (encodeDigitCube center size).2,
        to36 (encodeDigitCube corner size).1 ++ (encodeDigitCube corner size).2,
        ((rowMajorColors colors size).map colorEntry).flatten, []]) := by
  unfold buildPayload
  rw [encodeNumGrid_ok preset size hpv, encodeNumGrid_ok user size huv,
    encodeColors_ok colors size hcl]
  rfl

theorem splitOnPipe_buildPayload (size : Nat) (preset user : NumberGrid)
    (center corner : DigitCube) (colors : ColorGrid)
    (hpv : ∀ v ∈ rowMajorVals preset size, v < 36)
    (huv : ∀ v ∈ rowMajorVals user size, v < 36)
    (hcl : ∀ cl ∈ rowMajorColors colors size, cl.length < 36) :
    ∃ pl, buildPayload size preset user center corner colors = .ok pl ∧
      splitOnPipe pl = [hdrSG1, to36 size,
        (rowMajorVals preset size).map to36Digit,
        (rowMajorVals user size).map to36Digit,
        to36 (encodeDigitCube center size).1 ++ (encodeDigitCube center size).2,
        to36 (encodeDigitCube corner size).1 ++ (encodeDigitCube corner size).2,
        ((rowMajorColors colors size).map colorEntry).flatten, []] := by
  refine ⟨_, buildPayload_ok size preset user center corner colors hpv huv hcl, ?_⟩
  apply splitOnPipe_joinPipe
  · simp
  · intro p hp
    simp only [List.mem_cons] at hp
    rcases hp with rfl | rfl | rfl | rfl | rfl | rfl | rfl | rfl | h
    · decide
    · exact to36_no_pipe size
    · exact numSeg_no_pipe preset size hpv
    · exact numSeg_no_pipe user size huv
    · exact cubeSeg_no_pipe center size
    · exact cubeSeg_no_pipe corner size
    · exact colorsSeg_no_pipe colors size
    · simp
    · simp at h

/-- C1 (amended): codec round trip for board sizes up to 31.  For every board
size `N ≤ 31` and every puzzle state whose preset and user values lie in
`[0, 35]`, whose note cubes mark only digits in `[1, N]` (0/1 presence flags
with the unused slot 0 clear), and whose per-cell color lists contain only
known color names with fewer than 36 entries, decoding the payload produced
by `SG1.buildPayload` (`decodeNumGrid` on the preset and user segments,
`decodeDigitCube` on the center and corner segments, `decodeColors` on the
colors segment) reproduces every grid exactly.  The bound `N ≤ 31` is forced
by the 32-bit JavaScript shifts in the note-cube encoder (see the
counterexample at `N = 32`). -/
theorem claim1_roundtrip_amended (size : Nat) (preset user : NumberGrid)
    (center corner : DigitCube) (colors : ColorGrid)
    (hsize : size ≤ 31)
    (hps : gridShape preset size) (hus : gridShape user size)
    (hpv : ∀ v ∈ rowMajorVals preset size, v < 36)
    (huv : ∀ v ∈ rowMajorVals user size, v < 36)
    (hcs : cubeShape center size) (hks : cubeShape corner size)
    (hcm : ∀ r, r < size → ∀ c, c < size → cellMarksOnly (cubeCell center r c))
    (hkm : ∀ r, r < size → ∀ c, c < size → cellMarksOnly (cubeCell corner r c))
    (hcsh : colorShape colors size)
    (hcl : ∀ cl ∈ rowMajorColors colors size, cl.length < 36) :
    ∃ pl, buildPayload size preset user center corner colors = .ok pl ∧
      (splitOnPipe pl).length = 8 ∧
      decodeNumGrid ((splitOnPipe pl).getD 2 []) size = .ok preset ∧
      decodeNumGrid ((splitOnPipe pl).getD 3 []) size = .ok user ∧
      decodeDigitCube ((splitOnPipe pl).getD 4 []) size = .ok center ∧
      decodeDigitCube ((splitOnPipe pl).getD 5 []) size = .ok corner ∧
      decodeColors ((splitOnPipe pl).getD 6 []) size = .ok colors := by
  rcases splitOnPipe_buildPayload size preset user center corner colors hpv huv hcl
    with ⟨pl, hok, hsplit⟩
  refine ⟨pl, hok, ?_, ?_, ?_, ?_, ?_, ?_⟩ <;> rw [hsplit]
  · rfl
  · exact decodeNumGrid_encode preset size hps hpv
  · exact decodeNumGrid_encode user size hus huv
  · exact decodeDigitCube_encode center size hsize hcs hcm
  · exact decodeDigitCube_encode corner size hsize hks hkm
  · exact decodeColors_encode colors size hcsh hcl

/-! ### Theorems: claim C1 (codec round trip) -/

theorem getD_replicate {α : Type _} (n i : Nat) (a d : α) :
    (List.replicate n a).getD i d = if i < n then a else d := by
  rw [List.getD_eq_getElem?_getD, List.getElem?_replicate]
  split_ifs <;> rfl

theorem range_map_const {α : Type _} (n : Nat) (a : α) :
    (List.range n).map (fun _ => a) = List.replicate n a := by
  rw [List.map_const', List.length_range]

theorem gridGet_createNumberGrid (n r c : Nat) : gridGet (createNumberGrid n) r c = 0 := by
  unfold gridGet createNumberGrid
  rw [getD_replicate]
  split_ifs
  · rw [getD_replicate]
    split_ifs <;> rfl
  · rfl

theorem colorsGet_createColorGrid (n r c : Nat) : colorsGet (createColorGrid n) r c = [] := by
  unfold colorsGet createColorGrid
  rw [getD_replicate]
  split_ifs
  · rw [getD_replicate]
    split_ifs <;> rfl
  · rfl

theorem createNumberGrid_vals (n : Nat) :
    ∀ v ∈ rowMajorVals (createNumberGrid n) n, v < 36 := by
  intro v hv
  unfold rowMajorVals at hv
  rw [List.mem_flatMap] at hv
  rcases hv with ⟨r, _, hv⟩
  rcases List.mem_map.mp hv with ⟨c, _, rfl⟩
  rw [gridGet_createNumberGrid]
  omega

theorem createColorGrid_lens (n : Nat) :
    ∀ cl ∈ rowMajorColors (createColorGrid n) n, cl.length < 36 := by
  intro cl hcl
  unfold rowMajorColors at hcl
  rw [List.mem_flatMap] at hcl
  rcases hcl with ⟨r, _, hcl⟩
  rcases List.mem_map.mp hcl with ⟨c, _, rfl⟩
  rw [colorsGet_createColorGrid]
  decide

set_option maxRecDepth 20000 in
set_option maxHeartbeats 16000000 in
/-- C1 counterexample: at board size 32 (which the claim, quantifying over
every board size, includes) the state whose center cube marks all 32 digits
at cell (0,0) does not round-trip: the JavaScript 32-bit mask becomes the
signed value `-1`, `padStart` produces the chunk `"00000-1"`, `parseInt`
reads it as `0`, and the decoded center cube comes back empty.  The claim
as stated is therefore false at this input. -/
theorem claim1_counterexample :
    ((buildPayload 32 (createNumberGrid 32) (createNumberGrid 32) ce32 (createDigitCube 32)
        (createColorGrid 32)).bind
      fun pl => decodeDigitCube ((splitOnPipe pl).getD 4 []) 32)
      = .ok (createDigitCube 32)
    ∧ createDigitCube 32 ≠ ce32 := by
  constructor
  · have hpv := createNumberGrid_vals 32
    have hcl := createColorGrid_lens 32
    rcases splitOnPipe_buildPayload 32 (createNumberGrid 32) (createNumberGrid 32) ce32
      (createDigitCube 32) (createColorGrid 32) hpv hpv hcl with ⟨pl, hok, hsplit⟩
    rw [hok]
    show decodeDigitCube ((splitOnPipe pl).getD 4 []) 32 = _
    rw [hsplit]
    show decodeDigitCube (to36 (maskWidthForSize 32) ++
      ((rowMajorCells ce32 32).map fun cell =>
        padStart (maskToString (cellMaskPattern cell 32)) (maskWidthForSize 32)).flatten)
      32 = _
    have hcells : rowMajorCells ce32 32 = ce32cell :: List.replicate 1023 zc32 := by decide
    have hchunks : ((rowMajorCells ce32 32).map fun cell =>
        padStart (maskToString (cellMaskPattern cell 32)) (maskWidthForSize 32))
        = "00000-1".toList :: List.replicate 1023 "0000000".toList := by
      rw [hcells, List.map_cons, List.map_replicate]
      rw [show padStart (maskToString (cellMaskPattern ce32cell 32)) (maskWidthForSize 32)
        = "00000-1".toList from by decide]
      rw [show padStart (maskToString (cellMaskPattern zc32 32)) (maskWidthForSize 32)
        = "0000000".toList from by decide]
    rw [hchunks, show to36 (maskWidthForSize 32) = ['7'] from by decide,
      List.singleton_append]
    simp only [decodeDigitCube]
    rw [show (from36 ['7']).toNat = 7 from by decide]
    have hulen : ∀ ch ∈ ("00000-1".toList :: List.replicate 1023 "0000000".toList),
        ch.length = 7 := by
      intro ch hch
      rcases List.mem_cons.mp hch with rfl | hm
      · rfl
      · rw [List.eq_of_mem_replicate hm]
        rfl
    have hflen : (("00000-1".toList : List Char) ::
        List.replicate 1023 "0000000".toList).flatten.length = 32 * 32 * 7 := by
      rw [flatten_length_uniform 7 _ hulen, List.length_cons, List.length_replicate]
    rw [if_neg (by omega), if_neg (by rw [hflen]; omega)]
    refine congrArg Except.ok ?_
    have hchlen : ((("00000-1".toList : List Char)) ::
        List.replicate 1023 "0000000".toList).length = 1024 := by
      rw [List.length_cons, List.length_replicate]
    have hcell : ∀ r : Nat, r < 32 → ∀ c : Nat, c < 32 →
        ((((("00000-1".toList : List Char)) ::
            List.replicate 1023 "0000000".toList).flatten.drop
          ((r * 32 + c) * 7)).take 7)
          = ((("00000-1".toList : List Char)) ::
            List.replicate 1023 "0000000".toList).getD (r * 32 + c) [] :=
      fun r hr c hc => flatten_chunk_extract 7 _ _ hulen
        (by rw [hchlen]; exact rowMajorIndexLt 32 r c hr hc)
    have honecell : ∀ ch : List Char, from36 ch = 0 →
        ((List.range 33).map fun d => if d = 0 then (0 : Nat) else
          if (((from36 ch) % (2 ^ 32 : Int)).toNat).testBit ((d - 1) % 32) then 1 else 0)
        = List.replicate 33 0 := by
      intro ch h0
      rw [show (((from36 ch) % (2 ^ 32 : Int)).toNat) = 0 from by rw [h0]; rfl]
      refine Eq.trans (List.map_congr_left ?_) (range_map_const 33 0)
      intro d hd
      by_cases hd0 : d = 0
      · rw [if_pos hd0]
      · rw [if_neg hd0, Nat.zero_testBit, if_neg (by exact Bool.false_ne_true)]
    rw [show createDigitCube 32
      = List.replicate 32 (List.replicate 32 (List.replicate 33 (0 : Nat))) from rfl]
    refine Eq.trans (List.map_congr_left ?_) (range_map_const 32 _)
    intro r hrm
    have hr := List.mem_range.mp hrm
    refine Eq.trans (List.map_congr_left ?_) (range_map_const 32 _)
    intro c hcm
    have hc := List.mem_range.mp hcm
    have hgd0 : from36 (((("00000-1".toList : List Char)) ::
        List.replicate 1023 "0000000".toList).getD (r * 32 + c) []) = 0 := by
      cases hrc : r * 32 + c with
      | zero =>
        show from36 "00000-1".toList = 0
        decide
      | succ k =>
        show from36 ((List.replicate 1023 "0000000".toList).getD k []) = 0
        rw [getD_replicate]
        by_cases hk : k < 1023
        · rw [if_pos hk]; decide
        · rw [if_neg hk]; decide
    have h0 : from36 ((((("00000-1".toList : List Char)) ::
        List.replicate 1023 "0000000".toList).flatten.drop ((r * 32 + c) * 7)).take 7) = 0 := by
      rw [hcell r hr c hc]
      exact hgd0
    exact honecell _ h0
  · decide

theorem claim1_roundtrip_amended_witness :
    ∃ pl, buildPayload 2 [[1, 0], [0, 0]] [[0, 5], [0, 0]]
        [[[0, 1, 0], [0, 0, 0]], [[0, 0, 1], [0, 0, 0]]] (createDigitCube 2)
        [[[.red], []], [[], [.blue, .green]]] = .ok pl ∧
      (splitOnPipe pl).length = 8 ∧
      decodeNumGrid ((splitOnPipe pl).getD 2 []) 2 = .ok [[1, 0], [0, 0]] ∧
      decodeNumGrid ((splitOnPipe pl).getD 3 []) 2 = .ok [[0, 5], [0, 0]] ∧
      decodeDigitCube ((splitOnPipe pl).getD 4 []) 2
        = .ok [[[0, 1, 0], [0, 0, 0]], [[0, 0, 1], [0, 0, 0]]] ∧
      decodeDigitCube ((splitOnPipe pl).getD 5 []) 2 = .ok (createDigitCube 2) ∧
      decodeColors ((splitOnPipe pl).getD 6 []) 2
        = .ok [[[.red], []], [[], [.blue, .green]]] :=
  claim1_roundtrip_amended 2 [[1, 0], [0, 0]] [[0, 5], [0, 0]]
    [[[0, 1, 0], [0, 0, 0]], [[0, 0, 1], [0, 0, 0]]] (createDigitCube 2)
    [[[.red], []], [[], [.blue, .green]]]
    (by omega) (by decide) (by decide) (by decide) (by decide) (by decide) (by decide)
    (by decide) (by decide) (by decide) (by decide)

/-! ### Theorems: importState error paths (claims C3, C9, C10) -/

theorem decodeNumGrid_error {s : List Char} {size : Nat} {e : List Char}
    (h : decodeNumGrid s size = .error e) : e = msgNumLen := by
  unfold decodeNumGrid at h
  split_ifs at h with h1
  exact (Except.error.injEq _ _).mp h |>.symm

theorem decodeDigitCube_error {s : List Char} {size : Nat} {e : List Char}
    (h : decodeDigitCube s size = .error e) :
    e = msgCubeEmpty ∨ e = msgCubeWidth ∨ e = msgCubeLen := by
  unfold decodeDigitCube at h
  cases s with
  | nil => exact Or.inl ((Except.error.injEq _ _).mp h).symm
  | cons w body =>
    simp only at h
    split_ifs at h with h1 h2
    · exact Or.inr (Or.inl ((Except.error.injEq _ _).mp h).symm)
    · exact Or.inr (Or.inr ((Except.error.injEq _ _).mp h).symm)

theorem decodeColorCells_error : ∀ {n : Nat} {s : List Char} {e : List Char},
    decodeColorCells n s = .error e → e = msgColorsTrunc := by
  intro n
  induction n with
  | zero => intro s e h; simp [decodeColorCells] at h
  | succ n ih =>
    intro s e h
    cases s with
    | nil =>
      exact ((Except.error.injEq _ _).mp h).symm
    | cons lc rest =>
      simp only [decodeColorCells] at h
      cases h2 : decodeColorCells n (rest.drop (from36 [lc]).toNat) with
      | ok cells => rw [h2] at h; simp [Except.map] at h
      | error e' =>
        rw [h2] at h
        simp only [Except.map] at h
        rw [← ((Except.error.injEq _ _).mp h)]
        exact ih h2

theorem decodeColors_error {s : List Char} {size : Nat} {e : List Char}
    (h : decodeColors s size = .error e) : e = msgColorsTrunc := by
  unfold decodeColors at h
  cases h2 : decodeColorCells (size * size) s with
  | ok cells => rw [h2] at h; simp [Except.map] at h
  | error e' =>
    rw [h2] at h
    simp only [Except.map] at h
    rw [← ((Except.error.injEq _ _).mp h)]
    exact decodeColorCells_error h2

theorem sizeMismatchMsg_head (p : Int) (n : Nat) : (sizeMismatchMsg p n).getD 0 ' ' = 'S' :=
  rfl

theorem sizeMismatchMsg_ne_missing (p : Int) (n : Nat) : sizeMismatchMsg p n ≠ msgMissingSegs := by
  intro h
  have h0 : (sizeMismatchMsg p n).getD 0 ' ' = msgMissingSegs.getD 0 ' ' := by rw [h]
  rw [sizeMismatchMsg_head] at h0
  exact absurd h0 (by decide)

/-- C3 (amended): for every payload that carries the `SG1|` header and at
least 7 `|`-segments and whose declared size segment parses to a value
different from the instance size, `importState` fails with the size-mismatch
error.  The statement quantifies over arbitrary (even corrupt) body
segments, so the rejection provably happens before any body segment is
decoded; since `importState` only returns a new state on success, no
existing grid is altered. -/
theorem claim3_size_mismatch_amended (s : GridState) (p : List Char)
    (hhdr : (hdrSG1 ++ ['|']).isPrefixOf p = true)
    (hsegs : 7 ≤ (splitOnPipe p).length)
    (hmm : from36 ((splitOnPipe p).getD 1 []) ≠ (s.size : Int)) :
    importState s p
      = .error (sizeMismatchMsg (from36 ((splitOnPipe p).getD 1 [])) s.size) := by
  unfold importState
  rw [if_neg (by rw [hhdr]; simp), if_neg (by omega), if_pos hmm]

/-- C3 counterexample: the payload `SG1|9`, whose declared size segment is
`9`, imported into a 4×4 instance is rejected by the segment-count check
with the missing-segments error, not the size-mismatch error the claim
promises for every payload whose declared size differs. -/
theorem claim3_counterexample :
    importState (initState 4 (createNumberGrid 4)) ("SG1|9".toList)
        = .error msgMissingSegs
    ∧ from36 ((splitOnPipe "SG1|9".toList).getD 1 []) = 9
    ∧ (4 : Int) ≠ 9
    ∧ msgMissingSegs ≠ sizeMismatchMsg 9 4 := by
  refine ⟨by decide, by decide, by decide, ?_⟩
  intro h
  exact sizeMismatchMsg_ne_missing 9 4 h.symm

theorem claim3_size_mismatch_amended_witness :
    ((hdrSG1 ++ ['|']).isPrefixOf ("SG1|9|x|x|x|x|x".toList) = true)
    ∧ 7 ≤ (splitOnPipe "SG1|9|x|x|x|x|x".toList).length
    ∧ from36 ((splitOnPipe "SG1|9|x|x|x|x|x".toList).getD 1 []) ≠ ((4 : Nat) : Int)
    ∧ importState (initState 4 (createNumberGrid 4)) ("SG1|9|x|x|x|x|x".toList)
      = .error (sizeMismatchMsg
          (from36 ((splitOnPipe "SG1|9|x|x|x|x|x".toList).getD 1 [])) 4) :=
  ⟨by decide, by decide, by decide,
    claim3_size_mismatch_amended (initState 4 (createNumberGrid 4))
      ("SG1|9|x|x|x|x|x".toList) (by decide) (by decide) (by decide)⟩

theorem encodeNumGrid_ok_inv {g : NumberGrid} {size : Nat} {s : List Char}
    (h : encodeNumGrid g size = .ok s) :
    s = ((rowMajorVals g size).map to36).flatten := by
  unfold encodeNumGrid at h
  split_ifs at h
  exact ((Except.ok.injEq _ _).mp h).symm

theorem encodeColors_ok_inv {g : ColorGrid} {size : Nat} {s : List Char}
    (h : encodeColors g size = .ok s) :
    s = ((rowMajorColors g size).map colorEntry).flatten := by
  unfold encodeColors at h
  split_ifs at h
  exact ((Except.ok.injEq _ _).mp h).symm

theorem numFlat_no_pipe (g : NumberGrid) (size : Nat) :
    '|' ∉ ((rowMajorVals g size).map to36).flatten :=
  flatten_to36_no_pipe (rowMajorVals g size)

/-- C10: every payload built by `SG1.buildPayload` splits into exactly eight
`|`-separated segments — the `SG1` header, the size, the preset and user
grids, the center and corner note cubes, the colors, and a final empty
segment — so every produced payload ends with a trailing `|`; and
`importState` accepts (does not reject with the missing-segments error) any
payload with the header whose split yields at least 7 segments. -/
theorem claim10_payload_shape :
    (∀ size preset user center corner colors pl,
      buildPayload size preset user center corner colors = .ok pl →
      ∃ pSeg uSeg clSeg,
        encodeNumGrid preset size = .ok pSeg ∧ encodeNumGrid user size = .ok uSeg ∧
        encodeColors colors size = .ok clSeg ∧
        splitOnPipe pl = [hdrSG1, to36 size, pSeg, uSeg,
          to36 (encodeDigitCube center size).1 ++ (encodeDigitCube center size).2,
          to36 (encodeDigitCube corner size).1 ++ (encodeDigitCube corner size).2,
          clSeg, []] ∧
        (splitOnPipe pl).length = 8 ∧
        pl.getLast? = some '|')
    ∧ (∀ s encoded, (hdrSG1 ++ ['|']).isPrefixOf encoded = true →
        7 ≤ (splitOnPipe encoded).length →
        importState s encoded ≠ .error msgMissingSegs) := by
  constructor
  · intro size preset user center corner colors pl hok
    unfold buildPayload at hok
    cases hp : encodeNumGrid preset size with
    | error e =>
      rw [hp] at hok
      exact absurd (show Except.error e = Except.ok pl from hok) (by simp)
    | ok pSeg =>
    rw [hp] at hok
    cases hu : encodeNumGrid user size with
    | error e =>
      rw [hu] at hok
      exact absurd (show Except.error e = Except.ok pl from hok) (by simp)
    | ok uSeg =>
    rw [hu] at hok
    cases hc : encodeColors colors size with
    | error e =>
      rw [hc] at hok
      exact absurd (show Except.error e = Except.ok pl from hok) (by simp)
    | ok clSeg =>
    rw [hc] at hok
    have hpl : pl = joinPipe [hdrSG1, to36 size, pSeg, uSeg,
        to36 (encodeDigitCube center size).1 ++ (encodeDigitCube center size).2,
        to36 (encodeDigitCube corner size).1 ++ (encodeDigitCube corner size).2,
        clSeg, []] :=
      ((Except.ok.injEq _ _).mp (show Except.ok _ = Except.ok pl from hok)).symm
    have hnp : ∀ q ∈ [hdrSG1, to36 size, pSeg, uSeg,
        to36 (encodeDigitCube center size).1 ++ (encodeDigitCube center size).2,
        to36 (encodeDigitCube corner size).1 ++ (encodeDigitCube corner size).2,
        clSeg, ([] : List Char)], '|' ∉ q := by
      intro q hq
      simp only [List.mem_cons] at hq
      rcases hq with rfl | rfl | rfl | rfl | rfl | rfl | rfl | rfl | hcontra
      · decide
      · exact to36_no_pipe size
      · rw [encodeNumGrid_ok_inv hp]; exact numFlat_no_pipe preset size
      · rw [encodeNumGrid_ok_inv hu]; exact numFlat_no_pipe user size
      · exact cubeSeg_no_pipe center size
      · exact cubeSeg_no_pipe corner size
      · rw [encodeColors_ok_inv hc]; exact colorsSeg_no_pipe colors size
      · simp
      · simp at hcontra
    have hsplit : splitOnPipe pl = [hdrSG1, to36 size, pSeg, uSeg,
        to36 (encodeDigitCube center size).1 ++ (encodeDigitCube center size).2,
        to36 (encodeDigitCube corner size).1 ++ (encodeDigitCube corner size).2,
        clSeg, []] := by
      rw [hpl]
      exact splitOnPipe_joinPipe _ (by simp) hnp
    refine ⟨pSeg, uSeg, clSeg, rfl, rfl, rfl, hsplit, by rw [hsplit]; rfl, ?_⟩
    rw [hpl]
    show (joinPipe ([hdrSG1, to36 size, pSeg, uSeg,
      to36 (encodeDigitCube center size).1 ++ (encodeDigitCube center size).2,
      to36 (encodeDigitCube corner size).1 ++ (encodeDigitCube corner size).2,
      clSeg] ++ [[]])).getLast? = some '|'
    exact joinPipe_ends_pipe _ (by simp)
  · intro s encoded hhdr hseg
    simp only [importState]
    rw [if_neg (by rw [hhdr]; simp), if_neg (by omega)]
    split_ifs with hsz
    · intro h
      exact sizeMismatchMsg_ne_missing _ _ ((Except.error.injEq _ _).mp h)
    · cases h2 : decodeNumGrid ((splitOnPipe encoded).getD 2 []) s.size with
      | error e =>
        intro h
        have he := (Except.error.injEq _ _).mp
          (show Except.error e = Except.error msgMissingSegs from h)
        rw [decodeNumGrid_error h2] at he
        exact absurd he (by decide)
      | ok g2 =>
      cases h3 : decodeNumGrid ((splitOnPipe encoded).getD 3 []) s.size with
      | error e =>
        intro h
        have he := (Except.error.injEq _ _).mp
          (show Except.error e = Except.error msgMissingSegs from h)
        rw [decodeNumGrid_error h3] at he
        exact absurd he (by decide)
      | ok g3 =>
      cases h4 : decodeDigitCube ((splitOnPipe encoded).getD 4 []) s.size with
      | error e =>
        intro h
        have he := (Except.error.injEq _ _).mp
          (show Except.error e = Except.error msgMissingSegs from h)
        rcases decodeDigitCube_error h4 with rfl | rfl | rfl <;> exact absurd he (by decide)
      | ok c4 =>
      cases h5 : decodeDigitCube ((splitOnPipe encoded).getD 5 []) s.size with
      | error e =>
        intro h
        have he := (Except.error.injEq _ _).mp
          (show Except.error e = Except.error msgMissingSegs from h)
        rcases decodeDigitCube_error h5 with rfl | rfl | rfl <;> exact absurd he (by decide)
      | ok c5 =>
      cases h6 : decodeColors ((splitOnPipe encoded).getD 6 []) s.size with
      | error e =>
        intro h
        have he := (Except.error.injEq _ _).mp
          (show Except.error e = Except.error msgMissingSegs from h)
        rw [decodeColors_error h6] at he
        exact absurd he (by decide)
      | ok c6 =>
        intro h
        exact Except.noConfusion (show Except.ok _ = Except.error msgMissingSegs from h)

theorem claim10_payload_shape_witness :
    (∃ pSeg uSeg clSeg,
      encodeNumGrid [[0]] 1 = .ok pSeg ∧ encodeNumGrid [[5]] 1 = .ok uSeg ∧
      encodeColors [[[ColorName.red]]] 1 = .ok clSeg ∧
      splitOnPipe ("SG1|1|0|5|10|10|1r|".toList) = [hdrSG1, to36 1, pSeg, uSeg,
        to36 (encodeDigitCube (createDigitCube 1) 1).1
          ++ (encodeDigitCube (createDigitCube 1) 1).2,
        to36 (encodeDigitCube (createDigitCube 1) 1).1
          ++ (encodeDigitCube (createDigitCube 1) 1).2,
        clSeg, []] ∧
      (splitOnPipe ("SG1|1|0|5|10|10|1r|".toList)).length = 8 ∧
      ("SG1|1|0|5|10|10|1r|".toList).getLast? = some '|')
    ∧ importState (initState 1 (createNumberGrid 1)) ("SG1|1|0|!|10|10|0|".toList)
        ≠ .error msgMissingSegs :=
  ⟨claim10_payload_shape.1 1 [[0]] [[5]] (createDigitCube 1) (createDigitCube 1)
      [[[ColorName.red]]] ("SG1|1|0|5|10|10|1r|".toList) (by decide),
    claim10_payload_shape.2 (initState 1 (createNumberGrid 1))
      ("SG1|1|0|!|10|10|0|".toList) (by decide) (by decide)⟩

/-- C9 (amended): a character that is not a valid base-36 digit does not
abort decoding: `from36` (`parseInt(·, 36) || 0`) maps any such single
character to 0, and `decodeNumGrid` succeeds on every segment of the correct
length regardless of its characters.  Only the structural checks (header,
segment count, declared-size equality, segment lengths, mask width) can
reject a payload; a non-numeric size segment parses as 0 and is caught by
the size-mismatch check, not by a dedicated non-numeric error. -/
theorem claim9_nonnumeric_amended :
    (∀ c : Char, digit36 c = none → from36 [c] = 0)
    ∧ (∀ (s : List Char) (size : Nat), s.length = size * size →
        ∃ g, decodeNumGrid s size = .ok g) := by
  constructor
  · intro c hc
    unfold from36
    by_cases hws : jsWhitespace c
    · rw [List.dropWhile_cons]
      simp only [hws, if_true]
      rfl
    · rw [List.dropWhile_cons]
      simp only [hws, Bool.false_eq_true, if_false]
      by_cases hminus : c = '-'
      · subst hminus
        simp [takeDigits36]
      · by_cases hplus : c = '+'
        · subst hplus
          simp [hminus, takeDigits36]
        · simp only [hminus, hplus, if_false]
          simp [takeDigits36, List.takeWhile_cons, hc]
  · intro s size hlen
    refine ⟨(List.range size).map fun r => (List.range size).map fun c =>
      (from36 [s.getD (r * size + c) '0']).toNat, ?_⟩
    unfold decodeNumGrid
    rw [if_neg (by omega)]

theorem claim9_nonnumeric_amended_witness :
    from36 ['!'] = 0 ∧ ∃ g, decodeNumGrid ("a!zA".toList) 2 = .ok g :=
  ⟨claim9_nonnumeric_amended.1 '!' (by decide),
    claim9_nonnumeric_amended.2 ("a!zA".toList) 2 (by decide)⟩

/-- C9 counterexample: the payload `SG1|1|0|!|10|10|0|` puts the non-base-36
character `!` in the user-grid cell position; the claim demands that
decoding abort with a descriptive error, but `importState` succeeds, with
the cell decoded as 0 (the value grids, note cubes and colors all decode,
and the resulting user grid is `[[0]]`). -/
theorem claim9_counterexample :
    digit36 '!' = none ∧
    (importState (initState 1 (createNumberGrid 1)) ("SG1|1|0|!|10|10|0|".toList)).map
      (fun st => st.user) = .ok [[0]] := by
  constructor
  · decide
  · decide

/-! ### Theorems: claim C4 (redo-tail invalidation) -/

/-- When recording is not suppressed and the snapshot differs from the one
at the cursor, `pushHistory` produces a nonempty log with the cursor on the
last entry. -/
theorem pushHistory_records (s : GridState) (snap : List Char)
    (hsup : s.suppress = 0) (hne : s.history.get? s.histIndex.toNat ≠ some snap) :
    ∃ h : List (List Char), 0 < h.length ∧
      pushHistory s snap = { s with history := h, histIndex := (h.length : Int) - 1 } := by
  unfold pushHistory
  rw [if_neg (by omega), if_neg (fun hcontra => hne hcontra.2)]
  refine ⟨_, ?_, rfl⟩
  split_ifs with htake h200 h200 <;> simp only [List.length_drop, List.length_append,
    List.length_cons, List.length_nil] <;> omega

/-- With the cursor on the last entry of a nonempty log, `redo` returns
`false` and leaves the state unchanged. -/
theorem redo_at_end (s : GridState) (h : List (List Char)) (hlen : 0 < h.length) :
    redo { s with history := h, histIndex := (h.length : Int) - 1 }
      = .ok (false, { s with history := h, histIndex := (h.length : Int) - 1 }) := by
  have hh : ({ s with history := h, histIndex := (h.length : Int) - 1 } : GridState).history
      = h := rfl
  have hi : ({ s with history := h, histIndex := (h.length : Int) - 1 } : GridState).histIndex
      = (h.length : Int) - 1 := rfl
  unfold redo
  rw [hh, hi]
  split_ifs with h1 h2
  · rfl
  · rfl
  · exact absurd (le_refl ((h.length : Int) - 1)) h2

/-- C4: from any history state, after a successful `undo()` followed by a
new committed mutation (history recording not suppressed) that records a
snapshot different from the one at the cursor, `redo()` returns `false`:
`pushHistory` discards the snapshots ahead of the cursor, appends the new
snapshot and moves the cursor to the last index, so the redo guard
`cursor < length − 1` fails. -/
theorem claim4_redo_tail (s s' : GridState) (snap : List Char)
    (hundo : undo s = .ok (true, s'))
    (hsup : s'.suppress = 0)
    (hne : s'.history.get? s'.histIndex.toNat ≠ some snap) :
    redo (pushHistory s' snap) = .ok (false, pushHistory s' snap) := by
  rcases pushHistory_records s' snap hsup hne with ⟨h, hlen, hpush⟩
  rw [hpush]
  exact redo_at_end s' h hlen

theorem claim4_redo_tail_witness :
    undo claim4state = .ok (true, claim4stateAfter)
    ∧ claim4stateAfter.suppress = 0
    ∧ claim4stateAfter.history.get? claim4stateAfter.histIndex.toNat ≠ some hist4c
    ∧ redo (pushHistory claim4stateAfter hist4c)
        = .ok (false, pushHistory claim4stateAfter hist4c) :=
  ⟨by decide, by decide, by decide,
    claim4_redo_tail claim4state claim4stateAfter hist4c (by decide) (by decide) (by decide)⟩

/-! ### Theorems: selection targets (claim C5) -/

theorem listGetD_set_ne {α : Type} (l : List α) (i j : Nat) (a d : α) (h : i ≠ j) :
    (l.set i a).getD j d = l.getD j d := by
  induction l generalizing i j with
  | nil => rfl
  | cons x t ih =>
    cases i with
    | zero =>
      cases j with
      | zero => exact absurd rfl h
      | succ j => rfl
    | succ i =>
      cases j with
      | zero => rfl
      | succ j => exact ih i j fun hc => h (by omega)

theorem listGetD_set_lt {α : Type} (l : List α) (i : Nat) (a d : α) (h : i < l.length) :
    (l.set i a).getD i d = a := by
  induction l generalizing i with
  | nil => simp at h
  | cons x t ih =>
    cases i with
    | zero => rfl
    | succ i => exact ih i (by simpa using h)

theorem filter_flatMap_list {α β : Type} (p : β → Bool) (g : α → List β) (l : List α) :
    (l.flatMap g).filter p = l.flatMap fun r => (g r).filter p := by
  induction l with
  | nil => rfl
  | cons a t ih => simp [List.flatMap_cons, List.filter_append, ih]

theorem filterMap_if_pair (sel : Selection) (r : Nat) (l : List Nat) :
    (l.filterMap fun c => if selGet sel r c then some (r, c) else none)
      = (l.map fun c => (r, c)).filter fun rc => selGet sel rc.1 rc.2 := by
  induction l with
  | nil => rfl
  | cons a t ih =>
    cases h : selGet sel r a <;>
      simp [List.filterMap_cons, List.filter_cons, h, ih]

/-- With a well-shaped matrix, `stackFromMatrix` lists exactly the selected
cells in row-major order. -/
theorem stackFromMatrix_rowMajor (sel : Selection) (size : Nat)
    (hs : selShape sel size) :
    stackFromMatrix sel
      = (allCellsRowMajor size size).filter fun rc => selGet sel rc.1 rc.2 := by
  unfold stackFromMatrix allCellsRowMajor
  rw [hs.1, filter_flatMap_list]
  unfold List.flatMap
  apply congrArg
  apply List.map_congr_left
  intro r hr
  have hrlt : r < sel.length := by rw [hs.1]; exact List.mem_range.mp hr
  have hrow : (sel.getD r []).length = size := by
    have hmem : sel.getD r [] ∈ sel := by
      rw [List.getD_eq_getElem?_getD, List.getElem?_eq_getElem hrlt]
      exact List.getElem_mem hrlt
    exact hs.2 _ hmem
  rw [hrow]
  exact filterMap_if_pair sel r (List.range size)

/-- C5: target resolution.  With at least one selected cell, `targets` is the
row-major list of selected cells; otherwise it is `[current]` when a current
cell exists and `[]` when not; and all seven mutating operations invoked with
empty targets leave the state unchanged. -/
theorem claim5_targets (s : GridState) (v d : Int) (color : ColorName)
    (hs : selShape s.selection s.size) :
    (hasAnySelected s.selection = true →
      targetsOf s
        = (allCellsRowMajor s.size s.size).filter fun rc => selGet s.selection rc.1 rc.2)
    ∧ (∀ cc, hasAnySelected s.selection = false → s.current = some cc →
        targetsOf s = [cc])
    ∧ (hasAnySelected s.selection = false → s.current = none → targetsOf s = [])
    ∧ (targetsOf s = [] →
        setDigit s v = s ∧ toggleCenterNote s d = s ∧ toggleCornerNote s d = s
        ∧ clearCenterNotes s = s ∧ clearCornerNotes s = s
        ∧ annotateColor s color = s ∧ annotateClear s = s) := by
  refine ⟨?_, ?_, ?_, ?_⟩
  · intro h1
    unfold targetsOf selectionTargets
    rw [if_pos h1]
    exact stackFromMatrix_rowMajor s.selection s.size hs
  · intro cc h1 h2
    unfold targetsOf selectionTargets
    rw [if_neg (by simp [h1]), h2]
  · intro h1 h2
    unfold targetsOf selectionTargets
    rw [if_neg (by simp [h1]), h2]
  · intro h0
    refine ⟨?_, ?_, ?_, ?_, ?_, ?_, ?_⟩
    · unfold setDigit; rw [h0]; rfl
    · unfold toggleCenterNote; split_ifs with hg
      · rfl
      · rw [h0]; rfl
    · unfold toggleCornerNote; split_ifs with hg
      · rfl
      · rw [h0]; rfl
    · unfold clearCenterNotes; rw [h0]; rfl
    · unfold clearCornerNotes; rw [h0]; rfl
    · unfold annotateColor; rw [h0]; rfl
    · unfold annotateClear; rw [h0]; rfl

theorem claim5_targets_witness :
    selShape claim5st.selection claim5st.size
    ∧ ((hasAnySelected claim5st.selection = true →
        targetsOf claim5st = (allCellsRowMajor claim5st.size claim5st.size).filter
          fun rc => selGet claim5st.selection rc.1 rc.2)
      ∧ (∀ cc, hasAnySelected claim5st.selection = false →
          claim5st.current = some cc → targetsOf claim5st = [cc])
      ∧ (hasAnySelected claim5st.selection = false → claim5st.current = none →
          targetsOf claim5st = [])
      ∧ (targetsOf claim5st = [] →
          setDigit claim5st 3 = claim5st ∧ toggleCenterNote claim5st 1 = claim5st
          ∧ toggleCornerNote claim5st 1 = claim5st ∧ clearCenterNotes claim5st = claim5st
          ∧ clearCornerNotes claim5st = claim5st ∧ annotateColor claim5st .red = claim5st
          ∧ annotateClear claim5st = claim5st)) :=
  ⟨by decide, claim5_targets claim5st 3 1 .red (by decide)⟩

/-! ### Theorems: locked cells (claim C2) -/

theorem nestedGetD_set_ne {α : Type} (g : List (List α)) (r2 c2 : Nat) (v : α)
    (r c : Nat) (d : α) (h : ¬(r2 = r ∧ c2 = c)) :
    ((g.set r2 ((g.getD r2 []).set c2 v)).getD r []).getD c d
      = (g.getD r []).getD c d := by
  by_cases hr : r2 = r
  · subst hr
    have hc : c2 ≠ c := fun hc => h ⟨rfl, hc⟩
    by_cases hl : r2 < g.length
    · rw [listGetD_set_lt _ _ _ _ hl, listGetD_set_ne _ _ _ _ _ hc]
    · rw [List.set_eq_of_length_le (Nat.le_of_not_lt hl)]
  · rw [listGetD_set_ne _ _ _ _ _ hr]

/-- C2 (amended): the five digit and note operations never change any grid at
a preset cell (their per-target `isPreset` guard skips it, and none of them
touches the other stores at all); `annotateColor` and `annotateClear` never
change the user grid or the note cubes, but they have no `isPreset` guard, so
the color grid is exempt from the locked-cell invariant. -/
theorem claim2_locked_amended (s : GridState) (r c : Nat) (v d : Int) (color : ColorName)
    (hlock : isPreset s r c = true) :
    (gridGet (setDigit s v).user r c = gridGet s.user r c
      ∧ (setDigit s v).center = s.center ∧ (setDigit s v).corner = s.corner
      ∧ (setDigit s v).colors = s.colors)
    ∧ (cubeCell (toggleCenterNote s d).center r c = cubeCell s.center r c
      ∧ (toggleCenterNote s d).user = s.user ∧ (toggleCenterNote s d).corner = s.corner
      ∧ (toggleCenterNote s d).colors = s.colors)
    ∧ (cubeCell (toggleCornerNote s d).corner r c = cubeCell s.corner r c
      ∧ (toggleCornerNote s d).user = s.user ∧ (toggleCornerNote s d).center = s.center
      ∧ (toggleCornerNote s d).colors = s.colors)
    ∧ (cubeCell (clearCenterNotes s).center r c = cubeCell s.center r c
      ∧ (clearCenterNotes s).user = s.user ∧ (clearCenterNotes s).corner = s.corner
      ∧ (clearCenterNotes s).colors = s.colors)
    ∧ (cubeCell (clearCornerNotes s).corner r c = cubeCell s.corner r c
      ∧ (clearCornerNotes s).user = s.user ∧ (clearCornerNotes s).center = s.center
      ∧ (clearCornerNotes s).colors = s.colors)
    ∧ ((annotateColor s color).user = s.user ∧ (annotateColor s color).center = s.center
      ∧ (annotateColor s color).corner = s.corner)
    ∧ ((annotateClear s).user = s.user ∧ (annotateClear s).center = s.center
      ∧ (annotateClear s).corner = s.corner) := by
  have hsd : (setDigit s v).preset = s.preset
      ∧ gridGet (setDigit s v).user r c = gridGet s.user r c
      ∧ (setDigit s v).center = s.center ∧ (setDigit s v).corner = s.corner
      ∧ (setDigit s v).colors = s.colors := by
    unfold setDigit
    refine foldl_preserve (fun st => st.preset = s.preset
        ∧ gridGet st.user r c = gridGet s.user r c
        ∧ st.center = s.center ∧ st.corner = s.corner ∧ st.colors = s.colors)
      _ ?_ _ s ⟨rfl, rfl, rfl, rfl, rfl⟩
    intro a b hP
    dsimp only
    by_cases hg : isPreset a b.1 b.2 = true
    · rw [if_pos hg]; exact hP
    · rw [if_neg hg]
      have hbc : ¬(b.1 = r ∧ b.2 = c) := by
        rintro ⟨h1, h2⟩
        subst h1; subst h2
        apply hg
        show decide (0 < gridGet a.preset b.1 b.2) = true
        rw [hP.1]; exact hlock
      exact ⟨hP.1, (nestedGetD_set_ne a.user b.1 b.2 _ r c 0 hbc).trans hP.2.1, hP.2.2.1,
        hP.2.2.2.1, hP.2.2.2.2⟩
  have htc : (toggleCenterNote s d).preset = s.preset
      ∧ cubeCell (toggleCenterNote s d).center r c = cubeCell s.center r c
      ∧ (toggleCenterNote s d).user = s.user ∧ (toggleCenterNote s d).corner = s.corner
      ∧ (toggleCenterNote s d).colors = s.colors := by
    unfold toggleCenterNote
    split_ifs with hdg
    · exact ⟨rfl, rfl, rfl, rfl, rfl⟩
    · refine foldl_preserve (fun st => st.preset = s.preset
          ∧ cubeCell st.center r c = cubeCell s.center r c
          ∧ st.user = s.user ∧ st.corner = s.corner ∧ st.colors = s.colors)
        _ ?_ _ s ⟨rfl, rfl, rfl, rfl, rfl⟩
      intro a b hP
      dsimp only
      by_cases hg : isPreset a b.1 b.2 = true
      · rw [if_pos hg]; exact hP
      · rw [if_neg hg]
        have hbc : ¬(b.1 = r ∧ b.2 = c) := by
          rintro ⟨h1, h2⟩
          subst h1; subst h2
          apply hg
          show decide (0 < gridGet a.preset b.1 b.2) = true
          rw [hP.1]; exact hlock
        exact ⟨hP.1, (nestedGetD_set_ne a.center b.1 b.2 _ r c [] hbc).trans hP.2.1,
          hP.2.2.1, hP.2.2.2.1, hP.2.2.2.2⟩
  have hto : (toggleCornerNote s d).preset = s.preset
      ∧ cubeCell (toggleCornerNote s d).corner r c = cubeCell s.corner r c
      ∧ (toggleCornerNote s d).user = s.user ∧ (toggleCornerNote s d).center = s.center
      ∧ (toggleCornerNote s d).colors = s.colors := by
    unfold toggleCornerNote
    split_ifs with hdg
    · exact ⟨rfl, rfl, rfl, rfl, rfl⟩
    · refine foldl_preserve (fun st => st.preset = s.preset
          ∧ cubeCell st.corner r c = cubeCell s.corner r c
          ∧ st.user = s.user ∧ st.center = s.center ∧ st.colors = s.colors)
        _ ?_ _ s ⟨rfl, rfl, rfl, rfl, rfl⟩
      intro a b hP
      dsimp only
      by_cases hg : isPreset a b.1 b.2 = true
      · rw [if_pos hg]; exact hP
      · rw [if_neg hg]
        have hbc : ¬(b.1 = r ∧ b.2 = c) := by
          rintro ⟨h1, h2⟩
          subst h1; subst h2
          apply hg
          show decide (0 < gridGet a.preset b.1 b.2) = true
          rw [hP.1]; exact hlock
        exact ⟨hP.1, (nestedGetD_set_ne a.corner b.1 b.2 _ r c [] hbc).trans hP.2.1,
          hP.2.2.1, hP.2.2.2.1, hP.2.2.2.2⟩
  have hcc : (clearCenterNotes s).preset = s.preset
      ∧ cubeCell (clearCenterNotes s).center r c = cubeCell s.center r c
      ∧ (clearCenterNotes s).user = s.user ∧ (clearCenterNotes s).corner = s.corner
      ∧ (clearCenterNotes s).colors = s.colors := by
    unfold clearCenterNotes
    refine foldl_preserve (fun st => st.preset = s.preset
        ∧ cubeCell st.center r c = cubeCell s.center r c
        ∧ st.user = s.user ∧ st.corner = s.corner ∧ st.colors = s.colors)
      _ ?_ _ s ⟨rfl, rfl, rfl, rfl, rfl⟩
    intro a b hP
    dsimp only
    by_cases hg : isPreset a b.1 b.2 = true
    · rw [if_pos hg]; exact hP
    · rw [if_neg hg]
      have hbc : ¬(b.1 = r ∧ b.2 = c) := by
        rintro ⟨h1, h2⟩
        subst h1; subst h2
        apply hg
        show decide (0 < gridGet a.preset b.1 b.2) = true
        rw [hP.1]; exact hlock
      exact ⟨hP.1, (nestedGetD_set_ne a.center b.1 b.2 _ r c [] hbc).trans hP.2.1,
        hP.2.2.1, hP.2.2.2.1, hP.2.2.2.2⟩
  have hco : (clearCornerNotes s).preset = s.preset
      ∧ cubeCell (clearCornerNotes s).corner r c = cubeCell s.corner r c
      ∧ (clearCornerNotes s).user = s.user ∧ (clearCornerNotes s).center = s.center
      ∧ (clearCornerNotes s).colors = s.colors := by
    unfold clearCornerNotes
    refine foldl_preserve (fun st => st.preset = s.preset
        ∧ cubeCell st.corner r c = cubeCell s.corner r c
        ∧ st.user = s.user ∧ st.center = s.center ∧ st.colors = s.colors)
      _ ?_ _ s ⟨rfl, rfl, rfl, rfl, rfl⟩
    intro a b hP
    dsimp only
    by_cases hg : isPreset a b.1 b.2 = true
    · rw [if_pos hg]; exact hP
    · rw [if_neg hg]
      have hbc : ¬(b.1 = r ∧ b.2 = c) := by
        rintro ⟨h1, h2⟩
        subst h1; subst h2
        apply hg
        show decide (0 < gridGet a.preset b.1 b.2) = true
        rw [hP.1]; exact hlock
      exact ⟨hP.1, (nestedGetD_set_ne a.corner b.1 b.2 _ r c [] hbc).trans hP.2.1,
        hP.2.2.1, hP.2.2.2.1, hP.2.2.2.2⟩
  have hac : (annotateColor s color).user = s.user
      ∧ (annotateColor s color).center = s.center
      ∧ (annotateColor s color).corner = s.corner := by
    unfold annotateColor
    refine foldl_preserve (fun st => st.user = s.user ∧ st.center = s.center
        ∧ st.corner = s.corner) _ ?_ _ s ⟨rfl, rfl, rfl⟩
    intro a b hP
    exact hP
  have hacl : (annotateClear s).user = s.user
      ∧ (annotateClear s).center = s.center
      ∧ (annotateClear s).corner = s.corner := by
    unfold annotateClear
    refine foldl_preserve (fun st => st.user = s.user ∧ st.center = s.center
        ∧ st.corner = s.corner) _ ?_ _ s ⟨rfl, rfl, rfl⟩
    intro a b hP
    exact hP
  exact ⟨hsd.2, htc.2, hto.2, hcc.2, hco.2, hac, hacl⟩

/-- C2 counterexample: on a 1×1 board whose only cell is preset,
`annotateColor` still toggles the color of that cell — the source has no
`isPreset` guard on the color operations, so the claim as stated fails for
ColorGrid. -/
theorem claim2_counterexample :
    isPreset claim2st 0 0 = true
    ∧ colorsGet (annotateColor claim2st .red).colors 0 0 ≠ colorsGet claim2st.colors 0 0
    ∧ colorsGet (annotateColor claim2st .red).colors 0 0 = [ColorName.red] := by
  decide

theorem claim2_locked_amended_witness :
    isPreset claim2wst 0 0 = true
    ∧ ((gridGet (setDigit claim2wst 3).user 0 0 = gridGet claim2wst.user 0 0
      ∧ (setDigit claim2wst 3).center = claim2wst.center
      ∧ (setDigit claim2wst 3).corner = claim2wst.corner
      ∧ (setDigit claim2wst 3).colors = claim2wst.colors)
    ∧ (cubeCell (toggleCenterNote claim2wst 1).center 0 0 = cubeCell claim2wst.center 0 0
      ∧ (toggleCenterNote claim2wst 1).user = claim2wst.user
      ∧ (toggleCenterNote claim2wst 1).corner = claim2wst.corner
      ∧ (toggleCenterNote claim2wst 1).colors = claim2wst.colors)
    ∧ (cubeCell (toggleCornerNote claim2wst 1).corner 0 0 = cubeCell claim2wst.corner 0 0
      ∧ (toggleCornerNote claim2wst 1).user = claim2wst.user
      ∧ (toggleCornerNote claim2wst 1).center = claim2wst.center
      ∧ (toggleCornerNote claim2wst 1).colors = claim2wst.colors)
    ∧ (cubeCell (clearCenterNotes claim2wst).center 0 0 = cubeCell claim2wst.center 0 0
      ∧ (clearCenterNotes claim2wst).user = claim2wst.user
      ∧ (clearCenterNotes claim2wst).corner = claim2wst.corner
      ∧ (clearCenterNotes claim2wst).colors = claim2wst.colors)
    ∧ (cubeCell (clearCornerNotes claim2wst).corner 0 0 = cubeCell claim2wst.corner 0 0
      ∧ (clearCornerNotes claim2wst).user = claim2wst.user
      ∧ (clearCornerNotes claim2wst).center = claim2wst.center
      ∧ (clearCornerNotes claim2wst).colors = claim2wst.colors)
    ∧ ((annotateColor claim2wst .red).user = claim2wst.user
      ∧ (annotateColor claim2wst .red).center = claim2wst.center
      ∧ (annotateColor claim2wst .red).corner = claim2wst.corner)
    ∧ ((annotateClear claim2wst).user = claim2wst.user
      ∧ (annotateClear claim2wst).center = claim2wst.center
      ∧ (annotateClear claim2wst).corner = claim2wst.corner)) :=
  ⟨by decide, claim2_locked_amended claim2wst 0 0 3 1 .red (by decide)⟩

/-! ### Theorems: rect drag gestures (claim C7) -/

theorem selShape_row_len (sel : Selection) (size r : Nat) (hs : selShape sel size)
    (hr : r < size) : (sel.getD r []).length = size := by
  have hrl : r < sel.length := by rw [hs.1]; exact hr
  apply hs.2
  rw [List.getD_eq_getElem?_getD, List.getElem?_eq_getElem hrl]
  exact List.getElem_mem hrl

theorem selShape_empty (size : Nat) : selShape (createEmptySelection size) size := by
  constructor
  · exact List.length_replicate ..
  · intro row hrow
    rw [List.eq_of_mem_replicate hrow]
    exact List.length_replicate ..

theorem selShape_selSet (sel : Selection) (size r c : Nat) (v : Bool)
    (hs : selShape sel size) : selShape (selSet sel r c v) size := by
  by_cases hrl : r < sel.length
  · constructor
    · rw [selSet, List.length_set]; exact hs.1
    · intro row hrow
      rcases List.mem_or_eq_of_mem_set hrow with hmem | heq
      · exact hs.2 _ hmem
      · rw [heq, List.length_set]
        exact selShape_row_len sel size r hs (by rw [← hs.1]; exact hrl)
  · rw [selSet, List.set_eq_of_length_le (Nat.le_of_not_lt hrl)]
    exact hs

theorem selGet_selSet_self (sel : Selection) (size r c : Nat) (v : Bool)
    (hs : selShape sel size) (hr : r < size) (hc : c < size) :
    selGet (selSet sel r c v) r c = v := by
  have hrl : r < sel.length := by rw [hs.1]; exact hr
  show ((sel.set r ((sel.getD r []).set c v)).getD r []).getD c false = v
  rw [listGetD_set_lt _ _ _ _ hrl]
  have hcl : c < (sel.getD r []).length := by
    rw [selShape_row_len sel size r hs hr]; exact hc
  rw [listGetD_set_lt _ _ _ _ hcl]

theorem selGet_selSet_ne (sel : Selection) (r c : Nat) (v : Bool) (rr cc : Nat)
    (h : ¬(r = rr ∧ c = cc)) : selGet (selSet sel r c v) rr cc = selGet sel rr cc :=
  nestedGetD_set_ne sel r c v rr cc false h

theorem getD_replicate_cases {α : Type} (a d : α) : ∀ (n m : Nat),
    (List.replicate n a).getD m d = if m < n then a else d := by
  intro n
  induction n with
  | zero => intro m; rw [if_neg (by omega)]; rfl
  | succ k ih =>
    intro m
    cases m with
    | zero => rw [if_pos (by omega)]; rfl
    | succ m2 =>
      show (List.replicate k a).getD m2 d = _
      rw [ih m2]
      by_cases h : m2 < k
      · rw [if_pos h, if_pos (by omega)]
      · rw [if_neg h, if_neg (by omega)]

theorem selGet_empty (size rr cc : Nat) :
    selGet (createEmptySelection size) rr cc = false := by
  show ((List.replicate size (List.replicate size false)).getD rr []).getD cc false = false
  rw [getD_replicate_cases]
  by_cases h : rr < size
  · rw [if_pos h, getD_replicate_cases]
    by_cases h2 : cc < size
    · rw [if_pos h2]
    · rw [if_neg h2]
  · rw [if_neg h]
    rfl

theorem selGet_foldl_setTrue (size : Nat) :
    ∀ (l : List Cell) (w : Selection), selShape w size →
      (∀ rc ∈ l, rc.1 < size ∧ rc.2 < size) → ∀ rr cc : Nat,
      (selGet (l.foldl (fun w2 rc => selSet w2 rc.1 rc.2 true) w) rr cc = true
        ↔ (rr, cc) ∈ l ∨ selGet w rr cc = true) := by
  intro l
  induction l with
  | nil =>
    intro w hs hb rr cc
    rw [List.foldl_nil]
    constructor
    · exact fun h => Or.inr h
    · rintro (hm | h)
      · exact absurd hm (List.not_mem_nil _)
      · exact h
  | cons x t ih =>
    intro w hs hb rr cc
    rw [List.foldl_cons]
    have hx := hb x (List.mem_cons_self ..)
    have hrec := ih (selSet w x.1 x.2 true)
      (selShape_selSet w size x.1 x.2 true hs)
      (fun rc hrc => hb rc (List.mem_cons_of_mem _ hrc)) rr cc
    rw [hrec]
    have hone : selGet (selSet w x.1 x.2 true) rr cc = true
        ↔ ((rr, cc) = x ∨ selGet w rr cc = true) := by
      constructor
      · intro hget
        by_cases hxy : x.1 = rr ∧ x.2 = cc
        · exact Or.inl (by rw [← hxy.1, ← hxy.2])
        · rw [selGet_selSet_ne w x.1 x.2 true rr cc hxy] at hget
          exact Or.inr hget
      · rintro (heq | hget)
        · subst heq
          exact selGet_selSet_self w size rr cc true hs hx.1 hx.2
        · by_cases hxy : x.1 = rr ∧ x.2 = cc
          · obtain ⟨h1, h2⟩ := hxy
            rw [← h1, ← h2]
            exact selGet_selSet_self w size x.1 x.2 true hs hx.1 hx.2
          · rw [selGet_selSet_ne w x.1 x.2 true rr cc hxy]
            exact hget
    rw [hone, List.mem_cons]
    tauto

theorem mem_rectCellList (sr sc r c rr cc : Nat) :
    (rr, cc) ∈ rectCellList sr sc r c
      ↔ (min sr r ≤ rr ∧ rr ≤ max sr r ∧ min sc c ≤ cc ∧ cc ≤ max sc c) := by
  unfold rectCellList
  rw [List.mem_flatMap]
  constructor
  · rintro ⟨a, ha, hmem⟩
    rw [List.mem_map] at hmem
    rcases hmem with ⟨b, hb, heq⟩
    rw [List.mem_range'_1] at ha hb
    rw [Prod.mk.injEq] at heq
    obtain ⟨h1, h2⟩ := heq
    subst h1; subst h2
    omega
  · intro h
    refine ⟨rr, ?_, ?_⟩
    · rw [List.mem_range'_1]; omega
    · rw [List.mem_map]
      exact ⟨cc, by rw [List.mem_range'_1]; omega, rfl⟩

/-- The rect recomputation selects exactly the rectangle spanned by the two
corners (all four coordinates in bounds). -/
theorem selGet_rectSelection (size sr sc r c rr cc : Nat)
    (hr : r < size) (hc : c < size) (hsr : sr < size) (hsc : sc < size) :
    (selGet (rectSelection size sr sc r c) rr cc = true
      ↔ (min sr r ≤ rr ∧ rr ≤ max sr r ∧ min sc c ≤ cc ∧ cc ≤ max sc c)) := by
  unfold rectSelection
  rw [selGet_foldl_setTrue size (rectCellList sr sc r c) (createEmptySelection size)
    (selShape_empty size) ?_ rr cc]
  · rw [mem_rectCellList, selGet_empty]
    simp
  · intro rc hrc
    rcases rc with ⟨a, b⟩
    rw [mem_rectCellList] at hrc
    exact ⟨by omega, by omega⟩

theorem applyEffect_fields (s : GridState) :
    (applyEffect s).selection = s.selection ∧ (applyEffect s).drag = s.drag
      ∧ (applyEffect s).size = s.size := by
  unfold applyEffect
  split_ifs <;> exact ⟨rfl, rfl, rfl⟩

/-- A shift-without-ctrl pointer-down always takes the rect branch. -/
theorem pointerDown_shift (s : GridState) (r0 c0 : Nat) :
    pointerDown s r0 c0 false true
      = applyEffect { s with
          selection := selSet (createEmptySelection s.size)
            (clampIndex r0 s.size) (clampIndex c0 s.size) true
          stack := [(clampIndex r0 s.size, clampIndex c0 s.size)]
          current := some (clampIndex r0 s.size, clampIndex c0 s.size)
          drag := some ⟨.rect, (clampIndex r0 s.size, clampIndex c0 s.size),
            createEmptySelection s.size,
            selSet (createEmptySelection s.size) (clampIndex r0 s.size)
              (clampIndex c0 s.size) true,
            [clampIndex r0 s.size * s.size + clampIndex c0 s.size],
            some (clampIndex r0 s.size, clampIndex c0 s.size)⟩ } := rfl

/-- A pointer-move during a rect drag recomputes the rectangle from the
drag's start corner. -/
theorem pointerMove_rect (s : GridState) (info : DragInfo) (r0 c0 : Nat)
    (hd : s.drag = some info) (hm : info.mode = .rect) :
    pointerMove s r0 c0
      = applyEffect { s with
          selection := rectSelection s.size info.start.1 info.start.2
            (clampIndex r0 s.size) (clampIndex c0 s.size)
          stack := stackFromMatrix (rectSelection s.size info.start.1 info.start.2
            (clampIndex r0 s.size) (clampIndex c0 s.size))
          drag := some { info with
            working := rectSelection s.size info.start.1 info.start.2
              (clampIndex r0 s.size) (clampIndex c0 s.size)
            last := some (clampIndex r0 s.size, clampIndex c0 s.size) } } := by
  rcases info with ⟨mode, st, base, working, visited, last⟩
  cases hm
  unfold pointerMove
  rw [hd]

/-- Any sequence of pointer-moves during a rect drag keeps the drag alive,
keeps its mode and start corner and preserves the board size. -/
theorem rect_moves_run (ms : List (Nat × Nat)) :
    ∀ (t : GridState) (info : DragInfo), t.drag = some info → info.mode = .rect →
      ∃ info2 : DragInfo,
        (runUIOps t (ms.map fun p => UIOp.move p.1 p.2)).drag = some info2
        ∧ info2.mode = .rect ∧ info2.start = info.start
        ∧ (runUIOps t (ms.map fun p => UIOp.move p.1 p.2)).size = t.size := by
  induction ms with
  | nil => intro t info hd hm; exact ⟨info, hd, hm, rfl, rfl⟩
  | cons p rest ih =>
    intro t info hd hm
    have hstep := pointerMove_rect t info p.1 p.2 hd hm
    have hd1 : (pointerMove t p.1 p.2).drag
        = some { info with
            working := rectSelection t.size info.start.1 info.start.2
              (clampIndex p.1 t.size) (clampIndex p.2 t.size)
            last := some (clampIndex p.1 t.size, clampIndex p.2 t.size) } := by
      rw [hstep]; exact (applyEffect_fields _).2.1
    have hs1 : (pointerMove t p.1 p.2).size = t.size := by
      rw [hstep]; exact (applyEffect_fields _).2.2
    obtain ⟨i2, h2d, h2m, h2st, h2sz⟩ := ih (pointerMove t p.1 p.2) _ hd1 hm
    have hrw : runUIOps t ((p :: rest).map fun q => UIOp.move q.1 q.2)
        = runUIOps (pointerMove t p.1 p.2) (rest.map fun q => UIOp.move q.1 q.2) := rfl
    rw [hrw]
    exact ⟨i2, h2d, h2m, h2st, h2sz.trans hs1⟩

/-- C7: rect-gesture exactness.  After a pointer-down with shift held and
ctrl not held and any sequence of pointer moves, the move to `(r, c)` leaves
exactly the cells of the axis-aligned rectangle spanned by the (clamped)
start cell and `(r, c)` selected; every cell outside it — including cells
selected before the gesture began — reads unselected. -/
theorem claim7_rect (s : GridState) (r0 c0 : Nat) (ms : List (Nat × Nat))
    (r c rr cc : Nat) (hsz : 0 < s.size) :
    selGet (runUIOps s (UIOp.down r0 c0 false true ::
        ((ms.map fun p => UIOp.move p.1 p.2) ++ [UIOp.move r c]))).selection rr cc = true
      ↔ (min (clampIndex r0 s.size) (clampIndex r s.size) ≤ rr
        ∧ rr ≤ max (clampIndex r0 s.size) (clampIndex r s.size)
        ∧ min (clampIndex c0 s.size) (clampIndex c s.size) ≤ cc
        ∧ cc ≤ max (clampIndex c0 s.size) (clampIndex c s.size)) := by
  have hclr : ∀ v : Nat, clampIndex v s.size < s.size := fun v => by
    unfold clampIndex; omega
  have hrun : runUIOps s (UIOp.down r0 c0 false true ::
      ((ms.map fun p => UIOp.move p.1 p.2) ++ [UIOp.move r c]))
      = pointerMove (runUIOps (pointerDown s r0 c0 false true)
          (ms.map fun p => UIOp.move p.1 p.2)) r c := by
    unfold runUIOps
    rw [List.foldl_cons, List.foldl_append, List.foldl_cons, List.foldl_nil]
    rfl
  rw [hrun]
  have h1d : (pointerDown s r0 c0 false true).drag
      = some ⟨.rect, (clampIndex r0 s.size, clampIndex c0 s.size),
          createEmptySelection s.size,
          selSet (createEmptySelection s.size) (clampIndex r0 s.size)
            (clampIndex c0 s.size) true,
          [clampIndex r0 s.size * s.size + clampIndex c0 s.size],
          some (clampIndex r0 s.size, clampIndex c0 s.size)⟩ := by
    rw [pointerDown_shift]
    exact (applyEffect_fields _).2.1
  have h1s : (pointerDown s r0 c0 false true).size = s.size := by
    rw [pointerDown_shift]
    exact (applyEffect_fields _).2.2
  obtain ⟨i2, h2d, h2m, h2st, h2sz⟩ :=
    rect_moves_run ms (pointerDown s r0 c0 false true) _ h1d rfl
  have hst : i2.start = (clampIndex r0 s.size, clampIndex c0 s.size) := h2st
  have hsz2 : (runUIOps (pointerDown s r0 c0 false true)
      (ms.map fun p => UIOp.move p.1 p.2)).size = s.size := h2sz.trans h1s
  rw [pointerMove_rect _ i2 r c h2d h2m, (applyEffect_fields _).1, hsz2]
  show selGet (rectSelection s.size i2.start.1 i2.start.2
      (clampIndex r s.size) (clampIndex c s.size)) rr cc = true ↔ _
  rw [hst]
  exact selGet_rectSelection s.size (clampIndex r0 s.size) (clampIndex c0 s.size)
    (clampIndex r s.size) (clampIndex c s.size) rr cc
    (hclr r) (hclr c) (hclr r0) (hclr c0)

theorem claim7_rect_witness :
    0 < claim7st.size
    ∧ (selGet (runUIOps claim7st (UIOp.down 0 0 false true ::
        (([((0 : Nat), (1 : Nat))].map fun p => UIOp.move p.1 p.2)
          ++ [UIOp.move 1 1]))).selection 2 2 = true
      ↔ (min (clampIndex 0 claim7st.size) (clampIndex 1 claim7st.size) ≤ 2
        ∧ 2 ≤ max (clampIndex 0 claim7st.size) (clampIndex 1 claim7st.size)
        ∧ min (clampIndex 0 claim7st.size) (clampIndex 1 claim7st.size) ≤ 2
        ∧ 2 ≤ max (clampIndex 0 claim7st.size) (clampIndex 1 claim7st.size))) :=
  ⟨by decide, claim7_rect claim7st 0 0 [(0, 1)] 1 1 2 2 (by decide)⟩

/-! ### Theorems: paint-erase current-cell rule (claim C8) -/

theorem removeFromStack_idem (l : List Cell) (x : Cell) :
    removeFromStack (removeFromStack l x) x = removeFromStack l x := by
  unfold removeFromStack
  induction l with
  | nil => rfl
  | cons a t ih =>
    rw [List.filter_cons]
    split_ifs with h
    · rw [List.filter_cons, if_pos h, ih]
    · exact ih

theorem applyEffect_of_any (s : GridState) (h : hasAnySelected s.selection = true) :
    applyEffect s = s := by
  unfold applyEffect
  rw [if_pos h]

/-- A pointer-move during a paint-erase drag that reaches a new, still
selected cell equal to the current cell: the stack entry is removed twice and
the current cell becomes the last element of the resulting stack. -/
theorem pointerMove_erase_current (s : GridState) (info : DragInfo) (r0 c0 : Nat)
    (hd : s.drag = some info) (hm : info.mode = .paintErase)
    (hvis : ¬(clampIndex r0 s.size * s.size + clampIndex c0 s.size) ∈ info.visited)
    (hsel : selGet info.working (clampIndex r0 s.size) (clampIndex c0 s.size) = true)
    (hcur : s.current = some (clampIndex r0 s.size, clampIndex c0 s.size)) :
    pointerMove s r0 c0
      = applyEffect { s with
          selection := selSet info.working (clampIndex r0 s.size) (clampIndex c0 s.size) false
          stack := removeFromStack (removeFromStack s.stack
            (clampIndex r0 s.size, clampIndex c0 s.size))
            (clampIndex r0 s.size, clampIndex c0 s.size)
          current := (removeFromStack (removeFromStack s.stack
            (clampIndex r0 s.size, clampIndex c0 s.size))
            (clampIndex r0 s.size, clampIndex c0 s.size)).getLast?
          drag := some { info with
            working := selSet info.working (clampIndex r0 s.size) (clampIndex c0 s.size) false
            visited := (clampIndex r0 s.size * s.size + clampIndex c0 s.size) :: info.visited
            last := some (clampIndex r0 s.size, clampIndex c0 s.size) } } := by
  rcases info with ⟨mode, st2, base, working, visited, last⟩
  cases hm
  unfold pointerMove
  rw [hd]
  dsimp only
  rw [if_neg hvis, if_pos hsel, if_pos hcur]

/-- C8 (amended): at pointer-down the erased current cell is replaced by the
stack entry immediately before it (falling back to the new stack's last
element, `none` when the stack empties); at each newly visited cell of the
drag the source instead always takes the new stack's last element, with no
predecessor lookup. -/
theorem claim8_amended (s : GridState) (r0 c0 : Nat) (sh : Bool) :
    (selGet s.selection (clampIndex r0 s.size) (clampIndex c0 s.size) = true →
      hasAnySelected (selSet s.selection (clampIndex r0 s.size)
        (clampIndex c0 s.size) false) = true →
      (pointerDown s r0 c0 true sh).current
        = if 0 < indexInStack s.stack (clampIndex r0 s.size, clampIndex c0 s.size)
          then s.stack.get? (indexInStack s.stack
            (clampIndex r0 s.size, clampIndex c0 s.size) - 1).toNat
          else (removeFromStack s.stack
            (clampIndex r0 s.size, clampIndex c0 s.size)).getLast?)
    ∧ (∀ info : DragInfo, s.drag = some info → info.mode = .paintErase →
      ¬(clampIndex r0 s.size * s.size + clampIndex c0 s.size) ∈ info.visited →
      selGet info.working (clampIndex r0 s.size) (clampIndex c0 s.size) = true →
      s.current = some (clampIndex r0 s.size, clampIndex c0 s.size) →
      hasAnySelected (selSet info.working (clampIndex r0 s.size)
        (clampIndex c0 s.size) false) = true →
      (pointerMove s r0 c0).current
        = (removeFromStack s.stack
            (clampIndex r0 s.size, clampIndex c0 s.size)).getLast?) := by
  constructor
  · intro hsel hne
    simp only [pointerDown, if_true, true_and]
    rw [if_pos hsel]
    rw [applyEffect_of_any _ hne]
  · intro info hd hm hvis hsel hcur hne2
    rw [pointerMove_erase_current s info r0 c0 hd hm hvis hsel hcur]
    rw [applyEffect_of_any _ hne2]
    show (removeFromStack (removeFromStack s.stack
      (clampIndex r0 s.size, clampIndex c0 s.size))
      (clampIndex r0 s.size, clampIndex c0 s.size)).getLast? = _
    rw [removeFromStack_idem]

/-- C8 counterexample: on a 2×2 board with stack
`[(0,0), (0,1), (1,1)]` and current cell `(0,1)`, erasing `(0,1)` during a
drag move sets the current cell to the new stack's last element `(1,1)`, not
to the stack predecessor `(0,0)` required by the claim. -/
theorem claim8_counterexample :
    claim8st9.current = some (0, 1)
    ∧ claim8st9.stack = [(0, 0), (0, 1), (1, 1)]
    ∧ claim8st9.stack.get? (indexInStack claim8st9.stack (0, 1) - 1).toNat = some (0, 0)
    ∧ (pointerMove claim8st9 0 1).current = some (1, 1) := by
  decide

theorem claim8_amended_witness :
    selGet claim8st8.selection (clampIndex 1 claim8st8.size) (clampIndex 0 claim8st8.size)
        = true
    ∧ ((pointerDown claim8st8 1 0 true false).current
        = if 0 < indexInStack claim8st8.stack
            (clampIndex 1 claim8st8.size, clampIndex 0 claim8st8.size)
          then claim8st8.stack.get? (indexInStack claim8st8.stack
            (clampIndex 1 claim8st8.size, clampIndex 0 claim8st8.size) - 1).toNat
          else (removeFromStack claim8st8.stack
            (clampIndex 1 claim8st8.size, clampIndex 0 claim8st8.size)).getLast?)
    ∧ claim8st9.drag = some claim8info
    ∧ ((pointerMove claim8st9 0 1).current
        = (removeFromStack claim8st9.stack
            (clampIndex 0 claim8st9.size, clampIndex 1 claim8st9.size)).getLast?) :=
  ⟨by decide,
   (claim8_amended claim8st8 1 0 false).1 (by decide) (by decide),
   by decide,
   (claim8_amended claim8st9 0 1 false).2 claim8info (by decide) (by decide) (by decide)
     (by decide) (by decide) (by decide)⟩

/-! ### Theorems: selection-emptiness invariant (claim C6) -/

theorem clampIndex_lt (v size : Nat) (h : 0 < size) : clampIndex v size < size := by
  unfold clampIndex; omega

theorem clampInt_toNat_lt (b : Int) (size : Nat) (h : 0 < size) :
    (clampInt b 0 ((size : Int) - 1)).toNat < size := by
  unfold clampInt; omega

theorem hasAny_of_selGet (sel : Selection) (r c : Nat) (h : selGet sel r c = true) :
    hasAnySelected sel = true := by
  unfold selGet at h
  by_cases hr : r < sel.length
  case neg =>
    rw [List.getD_eq_getElem?_getD sel r, List.getElem?_eq_none (by omega)] at h
    exact Bool.noConfusion h
  case pos =>
    by_cases hc : c < (sel.getD r []).length
    case neg =>
      rw [List.getD_eq_getElem?_getD (sel.getD r []),
        List.getElem?_eq_none (by omega)] at h
      exact Bool.noConfusion h
    case pos =>
      unfold hasAnySelected
      rw [List.any_eq_true]
      refine ⟨sel.getD r [], ?_, ?_⟩
      · rw [List.getD_eq_getElem?_getD, List.getElem?_eq_getElem hr]
        exact List.getElem_mem hr
      · rw [List.any_eq_true]
        refine ⟨(sel.getD r []).getD c false, ?_, h⟩
        rw [List.getD_eq_getElem?_getD (sel.getD r []) c, List.getElem?_eq_getElem hc]
        exact List.getElem_mem hc

theorem selShape_foldl_selSet (size : Nat) (l : List Cell) :
    ∀ w, selShape w size →
      selShape (l.foldl (fun w2 rc => selSet w2 rc.1 rc.2 true) w) size := by
  induction l with
  | nil => intro w hw; exact hw
  | cons a t ih => intro w hw; exact ih _ (selShape_selSet _ _ _ _ _ hw)

theorem selShape_rect (size sr sc r c : Nat) : selShape (rectSelection size sr sc r c) size :=
  selShape_foldl_selSet size _ _ (selShape_empty size)

theorem applyEffect_inv (s : GridState) (hshape : selShape s.selection s.size)
    (hwork : ∀ info, s.drag = some info → selShape info.working s.size)
    (hnon : ∀ info, s.drag = some info → info.mode ≠ .paintErase →
      hasAnySelected s.selection = true)
    (hstart : ∀ info, s.drag = some info →
      info.start.1 < s.size ∧ info.start.2 < s.size) :
    gestureInv (applyEffect s) := by
  unfold gestureInv applyEffect
  split_ifs with h
  · exact ⟨hshape, hwork, fun hf => absurd h (by rw [hf]; exact Bool.false_ne_true),
      hnon, hstart⟩
  · exact ⟨hshape, hwork, fun hf => ⟨rfl, rfl⟩, hnon, hstart⟩

/-- Every pointer-down establishes the gesture invariant, opens a drag and
keeps the board size. -/
theorem pointerDown_inv (s : GridState) (r0 c0 : Nat) (ctrl sh : Bool)
    (hsz : 0 < s.size) (hinv : gestureInv s) :
    gestureInv (pointerDown s r0 c0 ctrl sh)
    ∧ (pointerDown s r0 c0 ctrl sh).drag.isSome = true
    ∧ (pointerDown s r0 c0 ctrl sh).size = s.size := by
  simp only [pointerDown]
  by_cases hc : ctrl = true
  · rw [if_pos hc, if_pos hc]
    by_cases hs1 : selGet s.selection (clampIndex r0 s.size) (clampIndex c0 s.size) = true
    · rw [if_pos ⟨hc, hs1⟩]
      refine ⟨applyEffect_inv _ ?_ ?_ ?_ ?_, by rw [(applyEffect_fields _).2.1]; rfl,
        by rw [(applyEffect_fields _).2.2]⟩
      · exact selShape_selSet _ _ _ _ _ hinv.1
      · intro i2 hd2
        obtain rfl := (Option.some.inj hd2).symm
        exact selShape_selSet _ _ _ _ _ hinv.1
      · intro i2 hd2 hm2
        obtain rfl := (Option.some.inj hd2).symm
        exact absurd rfl hm2
      · intro i2 hd2
        obtain rfl := (Option.some.inj hd2).symm
        exact ⟨clampIndex_lt _ _ hsz, clampIndex_lt _ _ hsz⟩
    · rw [if_neg (fun hh => hs1 hh.2)]
      refine ⟨applyEffect_inv _ ?_ ?_ ?_ ?_, by rw [(applyEffect_fields _).2.1]; rfl,
        by rw [(applyEffect_fields _).2.2]⟩
      · exact selShape_selSet _ _ _ _ _ hinv.1
      · intro i2 hd2
        obtain rfl := (Option.some.inj hd2).symm
        exact selShape_selSet _ _ _ _ _ hinv.1
      · intro i2 hd2 hm2
        exact hasAny_of_selGet _ _ _ (selGet_selSet_self s.selection s.size _ _ true
          hinv.1 (clampIndex_lt _ _ hsz) (clampIndex_lt _ _ hsz))
      · intro i2 hd2
        obtain rfl := (Option.some.inj hd2).symm
        exact ⟨clampIndex_lt _ _ hsz, clampIndex_lt _ _ hsz⟩
  · rw [if_neg hc, if_neg hc, if_neg (fun hh => hc hh.1)]
    by_cases hsh : sh = true
    · rw [if_pos hsh]
      refine ⟨applyEffect_inv _ ?_ ?_ ?_ ?_, by rw [(applyEffect_fields _).2.1]; rfl,
        by rw [(applyEffect_fields _).2.2]⟩
      · exact selShape_selSet _ _ _ _ _ (selShape_empty _)
      · intro i2 hd2
        obtain rfl := (Option.some.inj hd2).symm
        exact selShape_selSet _ _ _ _ _ (selShape_empty _)
      · intro i2 hd2 hm2
        exact hasAny_of_selGet _ _ _ (selGet_selSet_self _ s.size _ _ true
          (selShape_empty _) (clampIndex_lt _ _ hsz) (clampIndex_lt _ _ hsz))
      · intro i2 hd2
        obtain rfl := (Option.some.inj hd2).symm
        exact ⟨clampIndex_lt _ _ hsz, clampIndex_lt _ _ hsz⟩
    · rw [if_neg hsh]
      refine ⟨applyEffect_inv _ ?_ ?_ ?_ ?_, by rw [(applyEffect_fields _).2.1]; rfl,
        by rw [(applyEffect_fields _).2.2]⟩
      · exact selShape_selSet _ _ _ _ _ (selShape_empty _)
      · intro i2 hd2
        obtain rfl := (Option.some.inj hd2).symm
        exact selShape_selSet _ _ _ _ _ (selShape_empty _)
      · intro i2 hd2 hm2
        exact hasAny_of_selGet _ _ _ (selGet_selSet_self _ s.size _ _ true
          (selShape_empty _) (clampIndex_lt _ _ hsz) (clampIndex_lt _ _ hsz))
      · intro i2 hd2
        obtain rfl := (Option.some.inj hd2).symm
        exact ⟨clampIndex_lt _ _ hsz, clampIndex_lt _ _ hsz⟩

/-- Every pointer-move preserves the gesture invariant, the drag-activity
status and the board size. -/
theorem pointerMove_inv (s : GridState) (r0 c0 : Nat)
    (hsz : 0 < s.size) (hinv : gestureInv s) :
    gestureInv (pointerMove s r0 c0)
    ∧ (pointerMove s r0 c0).drag.isSome = s.drag.isSome
    ∧ (pointerMove s r0 c0).size = s.size := by
  cases hd : s.drag with
  | none =>
    have heq : pointerMove s r0 c0 = s := by unfold pointerMove; rw [hd]
    rw [heq, hd]
    exact ⟨hinv, rfl, rfl⟩
  | some info =>
    rcases info with ⟨mode, st, base, working, visited, last⟩
    cases mode with
    | rect =>
      unfold pointerMove
      rw [hd]
      dsimp only
      have hb := hinv.2.2.2.2 _ hd
      refine ⟨applyEffect_inv _ ?_ ?_ ?_ ?_, by rw [(applyEffect_fields _).2.1]; rfl,
        by rw [(applyEffect_fields _).2.2]⟩
      · exact selShape_rect _ _ _ _ _
      · intro i2 hd2
        obtain rfl := (Option.some.inj hd2).symm
        exact selShape_rect _ _ _ _ _
      · intro i2 hd2 hm2
        exact hasAny_of_selGet _ _ _ ((selGet_rectSelection s.size st.1 st.2
          (clampIndex r0 s.size) (clampIndex c0 s.size)
          (min st.1 (clampIndex r0 s.size)) (min st.2 (clampIndex c0 s.size))
          (clampIndex_lt _ _ hsz) (clampIndex_lt _ _ hsz) hb.1 hb.2).mpr
          (by omega))
      · intro i2 hd2
        obtain rfl := (Option.some.inj hd2).symm
        exact hb
    | paintAdd =>
      unfold pointerMove
      rw [hd]
      dsimp only
      by_cases hk : (clampIndex r0 s.size * s.size + clampIndex c0 s.size) ∈ visited
      · rw [if_pos hk]
        exact ⟨hinv, by rw [hd], rfl⟩
      · rw [if_neg hk]
        have hwsh : selShape working s.size := hinv.2.1 _ hd
        refine ⟨applyEffect_inv _ ?_ ?_ ?_ ?_, by rw [(applyEffect_fields _).2.1]; rfl,
          by rw [(applyEffect_fields _).2.2]⟩
        · exact selShape_selSet _ _ _ _ _ hwsh
        · intro i2 hd2
          obtain rfl := (Option.some.inj hd2).symm
          exact selShape_selSet _ _ _ _ _ hwsh
        · intro i2 hd2 hm2
          exact hasAny_of_selGet _ _ _ (selGet_selSet_self working s.size _ _ true
            hwsh (clampIndex_lt _ _ hsz) (clampIndex_lt _ _ hsz))
        · intro i2 hd2
          obtain rfl := (Option.some.inj hd2).symm
          have hst := hinv.2.2.2.2 _ hd
          exact hst
    | paintErase =>
      unfold pointerMove
      rw [hd]
      dsimp only
      by_cases hk : (clampIndex r0 s.size * s.size + clampIndex c0 s.size) ∈ visited
      · rw [if_pos hk]
        exact ⟨hinv, by rw [hd], rfl⟩
      · rw [if_neg hk]
        have hwsh : selShape working s.size := hinv.2.1 _ hd
        by_cases hsel : selGet working (clampIndex r0 s.size) (clampIndex c0 s.size) = true
        · rw [if_pos hsel]
          by_cases hcur : s.current = some (clampIndex r0 s.size, clampIndex c0 s.size)
          · rw [if_pos hcur]
            refine ⟨applyEffect_inv _ ?_ ?_ ?_ ?_, by rw [(applyEffect_fields _).2.1]; rfl,
              by rw [(applyEffect_fields _).2.2]⟩
            · exact selShape_selSet _ _ _ _ _ hwsh
            · intro i2 hd2
              obtain rfl := (Option.some.inj hd2).symm
              exact selShape_selSet _ _ _ _ _ hwsh
            · intro i2 hd2 hm2
              obtain rfl := (Option.some.inj hd2).symm
              exact absurd rfl hm2
            · intro i2 hd2
              obtain rfl := (Option.some.inj hd2).symm
              have hst := hinv.2.2.2.2 _ hd
              exact hst
          · rw [if_neg hcur]
            refine ⟨applyEffect_inv _ ?_ ?_ ?_ ?_, by rw [(applyEffect_fields _).2.1]; rfl,
              by rw [(applyEffect_fields _).2.2]⟩
            · exact selShape_selSet _ _ _ _ _ hwsh
            · intro i2 hd2
              obtain rfl := (Option.some.inj hd2).symm
              exact selShape_selSet _ _ _ _ _ hwsh
            · intro i2 hd2 hm2
              obtain rfl := (Option.some.inj hd2).symm
              exact absurd rfl hm2
            · intro i2 hd2
              obtain rfl := (Option.some.inj hd2).symm
              have hst := hinv.2.2.2.2 _ hd
              exact hst
        · rw [if_neg hsel]
          refine ⟨⟨hinv.1, ?_, hinv.2.2.1, ?_, ?_⟩, rfl, rfl⟩
          · intro i2 hd2
            obtain rfl := (Option.some.inj hd2).symm
            have hw2 := hinv.2.1 _ hd
            exact hw2
          · intro i2 hd2 hm2
            obtain rfl := (Option.some.inj hd2).symm
            exact absurd rfl hm2
          · intro i2 hd2
            obtain rfl := (Option.some.inj hd2).symm
            have hst := hinv.2.2.2.2 _ hd
            exact hst

/-- Pointer-up preserves the gesture invariant, closes the drag and keeps
the board size. -/
theorem finishDrag_inv (s : GridState) (hinv : gestureInv s) :
    gestureInv (finishDrag s)
    ∧ (finishDrag s).drag.isSome = false
    ∧ (finishDrag s).size = s.size := by
  cases hd : s.drag with
  | none =>
    have heq : finishDrag s = s := by unfold finishDrag; rw [hd]
    rw [heq, hd]
    exact ⟨hinv, rfl, rfl⟩
  | some info =>
    unfold finishDrag
    rw [hd]
    dsimp only
    by_cases hm : info.mode = .rect ∨ info.mode = .paintAdd
    · rw [if_pos hm]
      refine ⟨⟨hinv.1, ?_, ?_, ?_, ?_⟩, rfl, rfl⟩
      · intro i2 hd2
        exact Option.noConfusion hd2
      · intro hf
        have hmm : info.mode ≠ .paintErase := by
          rcases hm with h | h <;> rw [h] <;> decide
        have h4 := hinv.2.2.2.1 info hd hmm
        rw [hf] at h4
        exact Bool.noConfusion h4
      · intro i2 hd2 hm2
        exact Option.noConfusion hd2
      · intro i2 hd2
        exact Option.noConfusion hd2
    · rw [if_neg hm]
      refine ⟨⟨hinv.1, ?_, hinv.2.2.1, ?_, ?_⟩, rfl, rfl⟩
      · intro i2 hd2
        exact Option.noConfusion hd2
      · intro i2 hd2 hm2
        exact Option.noConfusion hd2
      · intro i2 hd2
        exact Option.noConfusion hd2

/-- Arrow-key movement preserves the gesture invariant, the drag-activity
status and the board size. -/
theorem moveCurrent_inv (s : GridState) (dr dc : Int)
    (hsz : 0 < s.size) (hinv : gestureInv s) :
    gestureInv (moveCurrent s dr dc)
    ∧ (moveCurrent s dr dc).drag.isSome = s.drag.isSome
    ∧ (moveCurrent s dr dc).size = s.size := by
  simp only [moveCurrent]
  refine ⟨applyEffect_inv _ ?_ ?_ ?_ ?_, by rw [(applyEffect_fields _).2.1],
    by rw [(applyEffect_fields _).2.2]⟩
  · exact selShape_selSet _ _ _ _ _ (selShape_empty _)
  · intro i2 hd2
    exact hinv.2.1 _ hd2
  · intro i2 hd2 hm2
    exact hasAny_of_selGet _ _ _ (selGet_selSet_self _ s.size _ _ true
      (selShape_empty _) (clampInt_toNat_lt _ _ hsz) (clampInt_toNat_lt _ _ hsz))
  · intro i2 hd2
    exact hinv.2.2.2.2 _ hd2

/-- Escape with no active drag preserves the gesture invariant. -/
theorem escapeKey_inv (s : GridState) (hinv : gestureInv s) (hd : s.drag = none) :
    gestureInv (escapeKey s)
    ∧ (escapeKey s).drag.isSome = false
    ∧ (escapeKey s).size = s.size := by
  unfold escapeKey
  refine ⟨applyEffect_inv _ ?_ ?_ ?_ ?_, ?_, by rw [(applyEffect_fields _).2.2]⟩
  · exact selShape_empty _
  · intro i2 hd2
    have h3 : s.drag = some i2 := hd2
    rw [hd] at h3
    exact Option.noConfusion h3
  · intro i2 hd2 hm2
    have h3 : s.drag = some i2 := hd2
    rw [hd] at h3
    exact Option.noConfusion h3
  · intro i2 hd2
    have h3 : s.drag = some i2 := hd2
    rw [hd] at h3
    exact Option.noConfusion h3
  · rw [(applyEffect_fields _).2.1]
    show s.drag.isSome = false
    rw [hd]
    rfl

theorem escSafe_aux : ∀ (ops : List UIOp) (ok active : Bool),
    (ops.foldl
      (fun st op =>
        match st, op with
        | (ok, _), .down _ _ _ _ => (ok, true)
        | (ok, _), .up => (ok, false)
        | (ok, active), .escape => (ok && !active, active)
        | (ok, active), _ => (ok, active))
      (ok, active)).1 = (ok && escAux ops active) := by
  intro ops
  induction ops with
  | nil =>
    intro ok active
    show ok = (ok && true)
    rw [Bool.and_true]
  | cons op rest ih =>
    intro ok active
    cases op with
    | down r c ctrl sh =>
      rw [List.foldl_cons]
      simp only [escAux]
      exact ih ok true
    | move r c =>
      rw [List.foldl_cons]
      simp only [escAux]
      exact ih ok active
    | up =>
      rw [List.foldl_cons]
      simp only [escAux]
      exact ih ok false
    | arrow dr dc =>
      rw [List.foldl_cons]
      simp only [escAux]
      exact ih ok active
    | escape =>
      rw [List.foldl_cons]
      simp only [escAux]
      have h2 := ih (ok && !active) active
      rw [Bool.and_assoc] at h2
      exact h2

/-- The invariant survives any escape-safe event run. -/
theorem gestureInv_run : ∀ (ops : List UIOp) (t : GridState), 0 < t.size →
    gestureInv t → escAux ops t.drag.isSome = true →
    gestureInv (runUIOps t ops) := by
  intro ops
  induction ops with
  | nil => intro t _ hinv _; exact hinv
  | cons op rest ih =>
    intro t hsz hinv hesc
    cases op with
    | down r c ctrl sh =>
      simp only [escAux] at hesc
      have h1 := pointerDown_inv t r c ctrl sh hsz hinv
      show gestureInv (runUIOps (pointerDown t r c ctrl sh) rest)
      refine ih _ ?_ h1.1 ?_
      · rw [h1.2.2]; exact hsz
      · rw [h1.2.1]; exact hesc
    | move r c =>
      simp only [escAux] at hesc
      have h1 := pointerMove_inv t r c hsz hinv
      show gestureInv (runUIOps (pointerMove t r c) rest)
      refine ih _ ?_ h1.1 ?_
      · rw [h1.2.2]; exact hsz
      · rw [h1.2.1]; exact hesc
    | up =>
      simp only [escAux] at hesc
      have h1 := finishDrag_inv t hinv
      show gestureInv (runUIOps (finishDrag t) rest)
      refine ih _ ?_ h1.1 ?_
      · rw [h1.2.2]; exact hsz
      · rw [h1.2.1]; exact hesc
    | arrow dr dc =>
      simp only [escAux] at hesc
      have h1 := moveCurrent_inv t dr dc hsz hinv
      show gestureInv (runUIOps (moveCurrent t dr dc) rest)
      refine ih _ ?_ h1.1 ?_
      · rw [h1.2.2]; exact hsz
      · rw [h1.2.1]; exact hesc
    | escape =>
      simp only [escAux] at hesc
      rw [Bool.and_eq_true] at hesc
      obtain ⟨hna, hrest⟩ := hesc
      cases hdd : t.drag with
      | some i =>
        rw [hdd] at hna
        exact Bool.noConfusion hna
      | none =>
        have h1 := escapeKey_inv t hinv hdd
        show gestureInv (runUIOps (escapeKey t) rest)
        refine ih _ ?_ h1.1 ?_
        · rw [h1.2.2]; exact hsz
        · rw [h1.2.1]
          rw [hdd] at hrest
          exact hrest

/-- C6 counterexample: pressing Escape during an active drag clears the
selection without closing the drag, and the following pointer-up restores a
current cell, so the board ends with an empty selection but a defined current
cell. -/
theorem claim6_counterexample :
    escSafe [UIOp.down 0 0 false false, UIOp.escape, UIOp.up] = false
    ∧ hasAnySelected (runUIOps (initState 2 (createNumberGrid 2))
        [UIOp.down 0 0 false false, UIOp.escape, UIOp.up]).selection = false
    ∧ (runUIOps (initState 2 (createNumberGrid 2))
        [UIOp.down 0 0 false false, UIOp.escape, UIOp.up]).current = some (0, 0) := by
  decide

/-- C6 (amended): the selection-emptiness invariant holds after every run of
pointer and key events that never presses Escape while a drag is active; the
unrestricted claim fails because Escape does not cancel `dragRef`, so the
following pointer-up repopulates the current cell. -/
theorem claim6_escape_amended (size : Nat) (preset : NumberGrid) (ops : List UIOp)
    (hsz : 0 < size) (hesc : escSafe ops = true) :
    emptinessInv (runUIOps (initState size preset) ops) := by
  have h0 : gestureInv (initState size preset) :=
    ⟨selShape_empty size,
     fun i hd => Option.noConfusion hd,
     fun _ => ⟨rfl, rfl⟩,
     fun i hd _ => Option.noConfusion hd,
     fun i hd => Option.noConfusion hd⟩
  have h3 := escSafe_aux ops true false
  rw [Bool.true_and] at h3
  have h4 : escSafe ops = escAux ops false := h3
  have hesc2 : escAux ops false = true := by rw [← h4]; exact hesc
  have h5 := gestureInv_run ops (initState size preset) hsz h0 hesc2
  exact h5.2.2.1

theorem claim6_escape_amended_witness :
    0 < (2 : Nat) ∧ escSafe claim6ops = true
    ∧ emptinessInv (runUIOps (initState 2 (createNumberGrid 2)) claim6ops) :=
  ⟨by decide, by decide,
   claim6_escape_amended 2 (createNumberGrid 2) claim6ops (by decide) (by decide)⟩

end Sudoku
